import Mathlib

/-!
# Verification of the netbird client split-horizon DNS orchestrator

Shallow embedding of `client/internal/dns/server.go` (the `DefaultServer`
orchestrator): configuration updates, priority-tiered handler construction,
extra-domain refcounting, upstream deactivate/reactivate callbacks, and
lifecycle teardown.  Collaborators that live outside the embedded slice
(the handler chain contracts, the host managers, the structural hash) are
modelled from the specification and marked as such.
-/

set_option autoImplicit false

namespace NetbirdDNS

/-- Go `nbdns.RootZone`: the DNS root zone `.`. -/
def RootZone : String := "."

/-- Modelled from the spec: the priority constants are declared in the
handler-chain file of the dns package, which is outside the embedded slice.
The spec fixes the strict ordering `Local > Upstream > Default > Fallback`
with gaps between adjacent tiers large enough to hold per-group decrements;
the concrete values below realise that contract. -/
def PriorityLocal : Int := 300

/-- Modelled from the spec: priority tier for non-primary upstream groups. -/
def PriorityUpstream : Int := 200

/-- Modelled from the spec: priority tier for primary (root-zone) groups. -/
def PriorityDefault : Int := 100

/-- Modelled from the spec: priority tier for the host's original
nameservers kept as a last resort. -/
def PriorityFallback : Int := 50

/-- Nameserver transport type (`nbdns.NameServerType`); only UDP is served. -/
inductive NSType where
  | udp
  | tcp
deriving DecidableEq, Repr

/-- Go `nbdns.NameServer`: one upstream server address. -/
structure NameServer where
  ip : String
  port : Nat
  nsType : NSType
deriving DecidableEq, Repr

/-- Go `nbdns.NameServerGroup` (the fields `server.go` reads, plus
`searchDomainsEnabled` used by the host-config derivation). -/
structure NameServerGroup where
  nameServers : List NameServer
  domains : List String
  primary : Bool
  searchDomainsEnabled : Bool
deriving DecidableEq, Repr

/-- Go `nbdns.SimpleRecord`: a synthetic local record. `rClass` is the DNS
class string; only `DefaultClass` records are kept. -/
structure SimpleRecord where
  name : String
  recordType : Nat
  rClass : String
  ttl : Nat
  rdata : String
deriving DecidableEq, Repr

/-- Go `nbdns.DefaultClass`: the Internet class. -/
def DefaultClass : String := "in"

/-- Go `nbdns.CustomZone`: a custom zone with its records. -/
structure CustomZone where
  domain : String
  records : List SimpleRecord
deriving DecidableEq, Repr

/-- Go `nbdns.Config`: the control-plane DNS configuration update. -/
structure Config where
  serviceEnable : Bool
  customZones : List CustomZone
  nameServerGroups : List NameServerGroup
deriving DecidableEq, Repr

/-- Go `DomainConfig` inside `HostDNSConfig`. -/
structure DomainConfig where
  domain : String
  matchOnly : Bool
  disabled : Bool
deriving DecidableEq, Repr

/-- Go `HostDNSConfig`: what the host manager installs. -/
structure HostDNSConfig where
  serverIP : String
  serverPort : Nat
  routeAll : Bool
  domains : List DomainConfig
deriving DecidableEq, Repr

/-- The closed set of handler kinds the orchestrator registers.  A handler's
identity (`ID()`) is derived from its zone and server list (spec §4.3), so
the handler value itself serves as its ID in the model. -/
inductive DnsHandler where
  | localResolver
  | upstream (zone : String) (servers : List String)
deriving DecidableEq, Repr

/-- Go `handlerWrapper`: a handler staged for registration at a zone/priority. -/
structure HandlerWrapper where
  domain : String
  handler : DnsHandler
  priority : Int
deriving DecidableEq, Repr

/-- Go `nsGroupsByDomain`: the groups claiming one match zone. -/
structure NsGroupsByDomain where
  domain : String
  groups : List NameServerGroup
deriving DecidableEq, Repr

/-- Go `formatAddr`: formats a nameserver address with port.  The Go code
brackets the address when `netip.ParseAddr` succeeds and reports IPv6; the
model uses the presence of `:` in the literal as the IPv6 discriminator. -/
def formatAddr (address : String) (port : Nat) : String :=
  if address.contains ':' then
    "[" ++ address ++ "]:" ++ toString port
  else
    address ++ ":" ++ toString port

/-- Go `getNSHostPort`: host:port literal of a nameserver. -/
def getNSHostPort (ns : NameServer) : String :=
  formatAddr ns.ip ns.port

/-- The `upstreamServers` list built in `createHandlersForDomainGroup`:
non-UDP entries are skipped with a warning, the rest are formatted. -/
def udpServers (g : NameServerGroup) : List String :=
  (g.nameServers.filter (fun ns => ns.nsType = NSType.udp)).map getNSHostPort

/-- Go `leaksPriority`: true when an assigned priority would fall into the next
lower tier, which makes `createHandlersForDomainGroup` stop taking groups
for this zone. -/
def leaksPriority (basePriority priority : Int) : Bool :=
  (basePriority = PriorityUpstream && priority ≤ PriorityDefault) ||
  (basePriority = PriorityDefault && priority ≤ PriorityFallback)

/-- The indexed loop body of `createHandlersForDomainGroup`: priority is
`basePriority - i` for group index `i`; a leak breaks out of the loop; a
group whose server list has no usable UDP entry is skipped (its handler is
stopped) but still consumes its index. -/
def createHandlersAux (dom : String) (basePriority : Int) :
    Nat → List NameServerGroup → List HandlerWrapper
  | _, [] => []
  | i, g :: rest =>
    let priority := basePriority - (i : Int)
    if leaksPriority basePriority priority then
      []
    else
      let servers := udpServers g
      let tail := createHandlersAux dom basePriority (i + 1) rest
      if servers.isEmpty then
        tail
      else
        { domain := dom, handler := .upstream dom servers, priority := priority } :: tail

/-- Go `createHandlersForDomainGroup`: builds the handler wrappers for one
match zone from its groups, in input order. -/
def createHandlersForDomainGroup (domainGroup : NsGroupsByDomain) (basePriority : Int) :
    List HandlerWrapper :=
  createHandlersAux domainGroup.domain basePriority 0 domainGroup.groups

/-- One step of `groupNSGroupsByDomain`'s map construction: append `g` to
the bucket of `key`, creating the bucket on first use (insertion order of
keys is kept; Go iterates the map in unspecified order, and every property
proved below is independent of the order across zones). -/
def addToBucket (buckets : List NsGroupsByDomain) (key : String) (g : NameServerGroup) :
    List NsGroupsByDomain :=
  match buckets with
  | [] => [{ domain := key, groups := [g] }]
  | b :: rest =>
    if b.domain = key then
      { b with groups := b.groups ++ [g] } :: rest
    else
      b :: addToBucket rest key g

/-- Go `groupNSGroupsByDomain`: primary groups go to the root-zone bucket;
non-primary groups go to each of their non-empty domains. -/
def groupNSGroupsByDomain (nsGroups : List NameServerGroup) : List NsGroupsByDomain :=
  nsGroups.foldl
    (fun buckets g =>
      if g.primary then
        addToBucket buckets RootZone g
      else
        (g.domains.filter (fun d => ¬d = "")).foldl
          (fun bs d => addToBucket bs d g) buckets)
    []

/-- The validation loop at the top of `buildUpstreamHandlerUpdate`:
groups with an empty nameserver list are skipped with a warning; a
non-primary group with an empty domain list, or any domain equal to the
empty string, is a hard error. -/
def validateNSGroups : List NameServerGroup → Option String
  | [] => none
  | g :: rest =>
    if g.nameServers.isEmpty then
      validateNSGroups rest
    else if ¬g.primary ∧ g.domains.isEmpty then
      some "received a non primary nameserver group with an empty domain list"
    else if g.domains.contains "" then
      some "received a nameserver group with an empty domain element"
    else
      validateNSGroups rest

/-- Go `buildUpstreamHandlerUpdate`: validate, group by domain, and create the
per-zone handlers with base priority `PriorityDefault` for the root zone
and `PriorityUpstream` otherwise. -/
def buildUpstreamHandlerUpdate (nameServerGroups : List NameServerGroup) :
    Except String (List HandlerWrapper) :=
  match validateNSGroups nameServerGroups with
  | some e => .error e
  | none =>
    let groupedNS := groupNSGroupsByDomain nameServerGroups
    .ok (groupedNS.foldl
      (fun acc domainGroup =>
        let basePriority := if domainGroup.domain = RootZone then PriorityDefault else PriorityUpstream
        acc ++ createHandlersForDomainGroup domainGroup basePriority)
      [])

/-- Go `buildLocalHandlerUpdate`: one `PriorityLocal` entry per custom zone
with records; wrong-class records are dropped, the remainder flattened. -/
def buildLocalHandlerUpdate (customZones : List CustomZone) :
    List HandlerWrapper × List SimpleRecord :=
  customZones.foldl
    (fun (acc : List HandlerWrapper × List SimpleRecord) cz =>
      if cz.records.isEmpty then
        acc
      else
        (acc.1 ++ [{ domain := cz.domain, handler := .localResolver, priority := PriorityLocal }],
         acc.2 ++ cz.records.filter (fun r => r.rClass = DefaultClass)))
    ([], [])

/-- Go `defaultPort`: DNS port 53. -/
def defaultPort : Nat := 53

/-- One entry of the handler chain: a handler registered for a zone at a
priority.  Modelled from the spec (§4.1): the chain keys entries by
`(zone, priority, handler-id)`; `handler_chain.go` is outside the slice. -/
structure ChainEntry where
  zone : String
  priority : Int
  handler : DnsHandler
deriving DecidableEq, Repr

/-- Modelled from the spec: `HandlerChain.AddHandler` is idempotent per
`(zone, priority, handler-id)`; re-registering replaces. -/
def chainAddHandler (chain : List ChainEntry) (zone : String) (h : DnsHandler) (p : Int) :
    List ChainEntry :=
  { zone := zone, priority := p, handler := h } ::
    chain.filter (fun e => ¬(e.zone = zone ∧ e.priority = p ∧ e.handler = h))

/-- Modelled from the spec: `HandlerChain.RemoveHandler` removes every entry
matching `(zone, priority)` regardless of handler identity. -/
def chainRemoveHandler (chain : List ChainEntry) (zone : String) (p : Int) :
    List ChainEntry :=
  chain.filter (fun e => ¬(e.zone = zone ∧ e.priority = p))

/-- External collaborators and fixed capabilities, passed alongside the
state: the structural hash (the `hashstructure` library), the host-manager
back end's capabilities and outcomes, the service's runtime address, and
build/OS gates.  All are outside the embedded slice. -/
structure Env where
  hashFn : Config → Nat
  restoreSucceeds : Bool
  supportCustomPort : Bool
  originalNS : List String
  runtimeIP : String
  runtimePort : Nat
  disableSys : Bool
  netstackEnabled : Bool
  goosAndroid : Bool
  hostsDNSList : List String

/-- The mutable fields of `DefaultServer` the embedded operations touch.
`extraDomains` is the zone-refcount map rendered as an association list
with unique keys; `hostApplied = none` means the host still runs its
captured original DNS configuration; `hostManagerNoop` mirrors the
`noopHostConfigurator` type test. -/
structure ServerState where
  ctxCancelled : Bool
  permanent : Bool
  updateSerial : Nat
  previousConfigHash : Nat
  currentConfig : HostDNSConfig
  dnsMuxMap : List HandlerWrapper
  handlerChain : List ChainEntry
  extraDomains : List (String × Int)
  localRecords : List SimpleRecord
  hostManagerNoop : Bool
  serviceRunning : Bool
  hostApplied : Option HostDNSConfig
  checkpointExists : Bool
deriving DecidableEq, Repr

/-- Modelled from the spec: `toZone` composes punycode conversion (identity
on ASCII, which the model assumes), `dns.Fqdn` and `nbdns.NormalizeZone`,
all outside the slice; the model lowercases and fully qualifies. -/
def toZone (d : String) : String :=
  let s := d.toLower
  if s.endsWith "." then s else s ++ "."

/-- Go `s.extraDomains[zone]++`: increment, creating the key at 1. -/
def incrRef : List (String × Int) → String → List (String × Int)
  | [], z => [(z, 1)]
  | (k, v) :: rest, z =>
    if k = z then (k, v + 1) :: rest else (k, v) :: incrRef rest z

/-- Go `s.extraDomains[zone]--` followed by delete when the count is `≤ 0`. -/
def decrRef : List (String × Int) → String → List (String × Int)
  | [], _ => []
  | (k, v) :: rest, z =>
    if k = z then (if v - 1 ≤ 0 then rest else (k, v - 1) :: rest)
    else (k, v) :: decrRef rest z

/-- Association-list lookup (first match). -/
def lookupRef : List (String × Int) → String → Option Int
  | [], _ => none
  | (k, v) :: rest, z => if k = z then some v else lookupRef rest z

/-- Association-list insert/update with unique keys kept in place. -/
def setRef : List (String × Int) → String → Int → List (String × Int)
  | [], z, v => [(z, v)]
  | (k, w) :: rest, z, v =>
    if k = z then (k, v) :: rest else (k, w) :: setRef rest z v

/-- Go `registerHandler` (lower-case, chain-only): empty domains are skipped
with a warning, the rest are added to the chain. -/
def registerHandlerInternal (st : ServerState) (domains : List String)
    (h : DnsHandler) (p : Int) : ServerState :=
  { st with handlerChain :=
      (domains.foldl (fun c d => if d = "" then c else chainAddHandler c d h p)
        st.handlerChain) }

/-- Go `deregisterHandler` (lower-case, chain-only). -/
def deregisterHandlerInternal (st : ServerState) (domains : List String) (p : Int) :
    ServerState :=
  { st with handlerChain :=
      (domains.foldl (fun c d => if d = "" then c else chainRemoveHandler c d p)
        st.handlerChain) }

/-- Go `applyHostConfig`: no-op when the context is cancelled; otherwise merge
the extra-domain zones not already present into a copy of `currentConfig`
as match-only entries, hand the copy to the host manager, and register the
original nameservers as a root-zone fallback when the manager exposes
them.  The noop host manager installs nothing on the host. -/
def applyHostConfigOp (env : Env) (st : ServerState) : ServerState :=
  if st.ctxCancelled then st
  else
    let existing := st.currentConfig.domains.map (·.domain)
    let config : HostDNSConfig :=
      { st.currentConfig with domains :=
          st.currentConfig.domains ++
            st.extraDomains.filterMap (fun p =>
              if existing.contains p.1 then none
              else some { domain := p.1, matchOnly := true, disabled := false }) }
    let st := if st.hostManagerNoop then st else { st with hostApplied := some config }
    -- registerFallback: only a real host manager exposes original nameservers
    if st.hostManagerNoop ∨ env.originalNS.isEmpty then st
    else
      let servers := (env.originalNS.filter (fun ns => ¬ns = config.serverIP)).map
        (fun ns => formatAddr ns defaultPort)
      registerHandlerInternal st [RootZone] (.upstream RootZone servers) PriorityFallback

/-- Go `RegisterHandler` (public): chain registration, a refcount bump per
domain's zone, then a host-config re-apply. -/
def RegisterHandlerOp (env : Env) (st : ServerState) (domains : List String)
    (h : DnsHandler) (p : Int) : ServerState :=
  let st := registerHandlerInternal st domains h p
  let st := { st with extraDomains :=
      (domains.foldl (fun m d => incrRef m (toZone d)) st.extraDomains) }
  applyHostConfigOp env st

/-- Go `DeregisterHandler` (public): symmetric removal. -/
def DeregisterHandlerOp (env : Env) (st : ServerState) (domains : List String)
    (p : Int) : ServerState :=
  let st := deregisterHandlerInternal st domains p
  let st := { st with extraDomains :=
      (domains.foldl (fun m d => decrRef m (toZone d)) st.extraDomains) }
  applyHostConfigOp env st

/-- Go `addHostRootZone`: register an upstream resolver over the held host DNS
servers for the root zone at `PriorityDefault`; skipped when none are held. -/
def addHostRootZoneOp (env : Env) (st : ServerState) : ServerState :=
  if env.hostsDNSList.isEmpty then st
  else registerHandlerInternal st [RootZone]
    (.upstream RootZone env.hostsDNSList) PriorityDefault

/-- Go `updateMux`: deregister and stop every previously registered entry,
register the new set, restore a host root-zone handler when the new set
has no root entry but the old one did, and rebuild the handler map keyed
by handler ID (later updates with the same ID overwrite earlier ones). -/
def updateMuxOp (env : Env) (st : ServerState) (muxUpdates : List HandlerWrapper) :
    ServerState :=
  let stA := st.dnsMuxMap.foldl
    (fun s ex => deregisterHandlerInternal s [ex.domain] ex.priority) st
  let stB := muxUpdates.foldl
    (fun s u => registerHandlerInternal s [u.domain] u.handler u.priority) stA
  let containsRootUpdate := muxUpdates.any (fun u => u.domain = RootZone)
  let stC :=
    if ¬containsRootUpdate ∧ st.dnsMuxMap.any (fun e => e.domain = RootZone) then
      addHostRootZoneOp env stB
    else stB
  { stC with dnsMuxMap :=
      muxUpdates.foldl (fun acc u => acc.filter (fun v => ¬v.handler = u.handler) ++ [u]) [] }

/-- Strip one trailing dot. -/
def trimDot (s : String) : String :=
  if s.endsWith "." then s.dropRight 1 else s

/-- Modelled from the spec: `dnsConfigToHostDNSConfig` lives in the host
configuration file of the dns package, outside this slice.  Per §3/§4.4 it
derives the host config: `routeAll` when a primary group exists, one
domain entry per group domain (match-only unless search domains are
enabled) and per custom zone. -/
def dnsConfigToHostDNSConfig (cfg : Config) (ip : String) (port : Nat) : HostDNSConfig :=
  { serverIP := ip
    serverPort := port
    routeAll := cfg.nameServerGroups.any (fun g => g.primary)
    domains :=
      (cfg.nameServerGroups.foldl (fun acc g =>
        acc ++ g.domains.map (fun d =>
          { domain := trimDot d, matchOnly := ¬g.searchDomainsEnabled, disabled := false })) [])
      ++ cfg.customZones.map (fun z =>
          { domain := trimDot z.domain, matchOnly := false, disabled := false }) }

/-- Go `enableDNS`: start the service and promote the noop host manager to a
real one unless gated by `disableSys` or netstack mode.  Initialization
failures are logged, not propagated. -/
def enableDNSOp (env : Env) (st : ServerState) : ServerState :=
  let st := { st with serviceRunning := true }
  if ¬st.hostManagerNoop then st
  else if env.disableSys ∨ env.netstackEnabled then st
  else { st with hostManagerNoop := false }

/-- Go `disableDNS`: stop the service (deferred), and with a real host manager
deregister the original-nameserver fallback, restore the host DNS, delete
the shutdown checkpoint when the restore succeeded, and fall back to the
noop manager. -/
def disableDNSOp (env : Env) (st : ServerState) : ServerState :=
  if st.hostManagerNoop then { st with serviceRunning := false }
  else
    let st :=
      if ¬env.originalNS.isEmpty then
        deregisterHandlerInternal st [RootZone] PriorityFallback
      else st
    let st :=
      if env.restoreSucceeds then
        { st with hostApplied := none, checkpointExists := false }
      else st
    { st with hostManagerNoop := true, serviceRunning := false }

/-- Go `applyConfiguration`: enable/disable the service, build the local and
upstream handler updates (the latter can reject the config), swap the mux,
store the local records, recompute `currentConfig` (forcing
`routeAll := false` on an unsupported custom port), re-apply the host
config, and persist the checkpoint. -/
def applyConfigurationOp (env : Env) (st : ServerState) (update : Config) :
    ServerState × Option String :=
  let st :=
    if update.serviceEnable then enableDNSOp env st
    else if ¬st.permanent then disableDNSOp env st
    else st
  let localBuilt := buildLocalHandlerUpdate update.customZones
  match buildUpstreamHandlerUpdate update.nameServerGroups with
  | .error e => (st, some e)
  | .ok upstreamMuxUpdates =>
    let st := updateMuxOp env st (localBuilt.1 ++ upstreamMuxUpdates)
    let st := { st with localRecords := localBuilt.2 }
    let st := { st with currentConfig :=
        dnsConfigToHostDNSConfig update env.runtimeIP env.runtimePort }
    let st :=
      if ¬env.runtimePort = defaultPort ∧ ¬env.supportCustomPort then
        { st with currentConfig := { st.currentConfig with routeAll := false } }
      else st
    let st := applyHostConfigOp env st
    let st := { st with checkpointExists := true }
    (st, none)

/-- Go `UpdateDNSServer`: reject on a cancelled context or a stale serial;
on an unchanged structural hash only advance the serial; otherwise apply
and then record serial and hash. -/
def updateDNSServerOp (env : Env) (st : ServerState) (serial : Nat) (update : Config) :
    ServerState × Option String :=
  if st.ctxCancelled then (st, some "context canceled")
  else if serial < st.updateSerial then
    (st, some "network update is behind the last applied update")
  else
    let hash := env.hashFn update
    if st.previousConfigHash = hash then
      ({ st with updateSerial := serial }, none)
    else
      match applyConfigurationOp env st update with
      | (st', some e) => (st', some e)
      | (st', none) =>
        ({ st' with updateSerial := serial, previousConfigHash := hash }, none)

/-- Go `SearchDomains`: the non-disabled, non-match-only domains of the
current host config, in order. -/
def searchDomainsOp (st : ServerState) : List String :=
  (st.currentConfig.domains.filter (fun d => ¬d.disabled ∧ ¬d.matchOnly)).map (·.domain)

/-- Go `Stop`: cancel the context, run `disableDNS` (errors logged), and clear
the extra-domain refcounts. -/
def stopOp (env : Env) (st : ServerState) : ServerState :=
  let st := { st with ctxCancelled := true }
  let st := disableDNSOp env st
  { st with extraDomains := [] }

/-- Set the `disabled` flag of the `i`-th domain entry. -/
def setDisabled (ds : List DomainConfig) (i : Nat) (b : Bool) : List DomainConfig :=
  match ds[i]? with
  | none => ds
  | some item => ds.set i { item with disabled := b }

/-- The deactivate callback from `upstreamCallbacks`: record `-1` for every
group domain (and the root zone for a primary group, which also clears
`routeAll` and deregisters the root handler), then walk
`currentConfig.Domains`, disabling and deregistering each recorded domain
and storing its index; re-apply the host config, persist, and on an
Android primary deactivation re-add the host root zone.  Returns the new
state together with the recorded `removeIndex` map. -/
def deactivateOp (env : Env) (st : ServerState) (nsGroup : NameServerGroup)
    (priority : Int) : ServerState × List (String × Int) :=
  let removeIndex : List (String × Int) :=
    nsGroup.domains.foldl (fun m d => setRef m d (-1)) []
  let stRi :=
    if nsGroup.primary then
      (deregisterHandlerInternal
        { st with currentConfig := { st.currentConfig with routeAll := false } }
        [RootZone] priority,
       setRef removeIndex RootZone (-1))
    else (st, removeIndex)
  let stRi :=
    (List.range stRi.1.currentConfig.domains.length).foldl
      (fun (p : ServerState × List (String × Int)) i =>
        match p.1.currentConfig.domains[i]? with
        | none => p
        | some item =>
          if (lookupRef p.2 item.domain).isSome then
            let s := { p.1 with currentConfig :=
                { p.1.currentConfig with
                    domains := setDisabled p.1.currentConfig.domains i true } }
            let s := deregisterHandlerInternal s [item.domain] priority
            (s, setRef p.2 item.domain (i : Int))
          else p)
      stRi
  let st := applyHostConfigOp env stRi.1
  let st :=
    if env.goosAndroid ∧ nsGroup.primary ∧ ¬env.hostsDNSList.isEmpty then
      addHostRootZoneOp env st
    else st
  (st, stRi.2)

/-- One iteration of the reactivate loop over the recorded `removeIndex`
map: skip the sentinel `-1`, out-of-range indices, and slots whose domain
no longer matches the recorded name; otherwise clear the `disabled` flag
at the recorded index and re-register the handler for that domain. -/
def reactivateStep (handler : DnsHandler) (priority : Int)
    (s : ServerState) (q : String × Int) : ServerState :=
  if q.2 = -1 ∨ (s.currentConfig.domains.length : Int) ≤ q.2 then s
  else
    match s.currentConfig.domains[q.2.toNat]? with
    | none => s
    | some item =>
      if ¬item.domain = q.1 then s
      else
        registerHandlerInternal
          { s with currentConfig :=
              { s.currentConfig with
                  domains := setDisabled s.currentConfig.domains q.2.toNat false } }
          [q.1] handler priority

/-- The reactivate callback from `upstreamCallbacks`: undo the recorded
disable flags (guarded per slot), then for a primary group restore
`routeAll := true` and re-register the root-zone handler; the host config
is then re-applied. -/
def reactivateOp (env : Env) (st : ServerState) (nsGroup : NameServerGroup)
    (handler : DnsHandler) (priority : Int) (removeIndex : List (String × Int)) :
    ServerState :=
  let st := removeIndex.foldl (reactivateStep handler priority) st
  let st :=
    if nsGroup.primary then
      registerHandlerInternal
        { st with currentConfig := { st.currentConfig with routeAll := true } }
        [RootZone] handler priority
    else st
  applyHostConfigOp env st

/-! ## Frame lemmas: which fields each operation can touch -/

/-- Folding a chain-only step over a list leaves every other field alone. -/
theorem foldl_chain_only {α : Type} (f : ServerState → α → ServerState)
    (hf : ∀ s a, ∃ c, f s a = { s with handlerChain := c }) :
    ∀ (l : List α) (s : ServerState), ∃ c, l.foldl f s = { s with handlerChain := c } := by
  intro l
  induction l with
  | nil => intro s; exact ⟨s.handlerChain, rfl⟩
  | cons a t ih =>
    intro s
    obtain ⟨c, hc⟩ := hf s a
    obtain ⟨c₂, hc₂⟩ := ih (f s a)
    exact ⟨c₂, by rw [List.foldl_cons, hc₂, hc]⟩

theorem registerHandlerInternal_shape (st : ServerState) (D : List String)
    (h : DnsHandler) (p : Int) :
    ∃ c, registerHandlerInternal st D h p = { st with handlerChain := c } :=
  ⟨_, rfl⟩

theorem deregisterHandlerInternal_shape (st : ServerState) (D : List String) (p : Int) :
    ∃ c, deregisterHandlerInternal st D p = { st with handlerChain := c } :=
  ⟨_, rfl⟩

theorem addHostRootZoneOp_shape (env : Env) (st : ServerState) :
    ∃ c, addHostRootZoneOp env st = { st with handlerChain := c } := by
  unfold addHostRootZoneOp
  split
  · exact ⟨st.handlerChain, rfl⟩
  · exact ⟨_, rfl⟩

/-- Applying the host config changes only the chain (fallback registration)
and the installed host configuration. -/
theorem applyHostConfigOp_shape (env : Env) (st : ServerState) :
    ∃ c ha, applyHostConfigOp env st = { st with handlerChain := c, hostApplied := ha } := by
  unfold applyHostConfigOp
  split
  · exact ⟨st.handlerChain, st.hostApplied, rfl⟩
  · dsimp only
    split
    · split
      · exact ⟨st.handlerChain, st.hostApplied, rfl⟩
      · exact ⟨_, st.hostApplied, rfl⟩
    · split
      · exact ⟨st.handlerChain, _, rfl⟩
      · exact ⟨_, _, rfl⟩

theorem enableDNSOp_shape (env : Env) (st : ServerState) :
    ∃ noop run, enableDNSOp env st = { st with hostManagerNoop := noop, serviceRunning := run } := by
  simp only [enableDNSOp]
  split
  · exact ⟨st.hostManagerNoop, true, rfl⟩
  · split
    · exact ⟨st.hostManagerNoop, true, rfl⟩
    · exact ⟨false, true, rfl⟩

theorem disableDNSOp_shape (env : Env) (st : ServerState) :
    ∃ c noop run ha cp,
      disableDNSOp env st =
        { st with handlerChain := c, hostManagerNoop := noop, serviceRunning := run,
                  hostApplied := ha, checkpointExists := cp } := by
  unfold disableDNSOp
  split
  · exact ⟨st.handlerChain, st.hostManagerNoop, false, st.hostApplied, st.checkpointExists, rfl⟩
  · split
    · split
      · exact ⟨_, true, false, none, false, rfl⟩
      · exact ⟨_, true, false, st.hostApplied, st.checkpointExists, rfl⟩
    · split
      · exact ⟨st.handlerChain, true, false, none, false, rfl⟩
      · exact ⟨st.handlerChain, true, false, st.hostApplied, st.checkpointExists, rfl⟩

theorem updateMuxOp_shape (env : Env) (st : ServerState) (u : List HandlerWrapper) :
    ∃ c m, updateMuxOp env st u = { st with handlerChain := c, dnsMuxMap := m } := by
  simp only [updateMuxOp]
  obtain ⟨c₁, h₁⟩ := foldl_chain_only
    (fun s ex => deregisterHandlerInternal s [ex.domain] ex.priority)
    (fun s ex => deregisterHandlerInternal_shape s [ex.domain] ex.priority) st.dnsMuxMap st
  rw [h₁]
  obtain ⟨c₂, h₂⟩ := foldl_chain_only
    (fun s w => registerHandlerInternal s [w.domain] w.handler w.priority)
    (fun s w => registerHandlerInternal_shape s [w.domain] w.handler w.priority) u
    { st with handlerChain := c₁ }
  rw [h₂]
  split
  · obtain ⟨c₃, h₃⟩ := addHostRootZoneOp_shape env
      { st with handlerChain := c₂ }
    rw [h₃]
    exact ⟨c₃, _, rfl⟩
  · exact ⟨c₂, _, rfl⟩

@[simp] theorem applyHostConfigOp_currentConfig (env : Env) (st : ServerState) :
    (applyHostConfigOp env st).currentConfig = st.currentConfig := by
  obtain ⟨c, ha, h⟩ := applyHostConfigOp_shape env st; rw [h]

@[simp] theorem applyHostConfigOp_extraDomains (env : Env) (st : ServerState) :
    (applyHostConfigOp env st).extraDomains = st.extraDomains := by
  obtain ⟨c, ha, h⟩ := applyHostConfigOp_shape env st; rw [h]

@[simp] theorem applyHostConfigOp_updateSerial (env : Env) (st : ServerState) :
    (applyHostConfigOp env st).updateSerial = st.updateSerial := by
  obtain ⟨c, ha, h⟩ := applyHostConfigOp_shape env st; rw [h]

@[simp] theorem applyHostConfigOp_previousConfigHash (env : Env) (st : ServerState) :
    (applyHostConfigOp env st).previousConfigHash = st.previousConfigHash := by
  obtain ⟨c, ha, h⟩ := applyHostConfigOp_shape env st; rw [h]

@[simp] theorem applyHostConfigOp_dnsMuxMap (env : Env) (st : ServerState) :
    (applyHostConfigOp env st).dnsMuxMap = st.dnsMuxMap := by
  obtain ⟨c, ha, h⟩ := applyHostConfigOp_shape env st; rw [h]

@[simp] theorem applyHostConfigOp_localRecords (env : Env) (st : ServerState) :
    (applyHostConfigOp env st).localRecords = st.localRecords := by
  obtain ⟨c, ha, h⟩ := applyHostConfigOp_shape env st; rw [h]

@[simp] theorem applyHostConfigOp_ctxCancelled (env : Env) (st : ServerState) :
    (applyHostConfigOp env st).ctxCancelled = st.ctxCancelled := by
  obtain ⟨c, ha, h⟩ := applyHostConfigOp_shape env st; rw [h]

@[simp] theorem enableDNSOp_currentConfig (env : Env) (st : ServerState) :
    (enableDNSOp env st).currentConfig = st.currentConfig := by
  obtain ⟨a, b, h⟩ := enableDNSOp_shape env st; rw [h]

@[simp] theorem enableDNSOp_updateSerial (env : Env) (st : ServerState) :
    (enableDNSOp env st).updateSerial = st.updateSerial := by
  obtain ⟨a, b, h⟩ := enableDNSOp_shape env st; rw [h]

@[simp] theorem enableDNSOp_previousConfigHash (env : Env) (st : ServerState) :
    (enableDNSOp env st).previousConfigHash = st.previousConfigHash := by
  obtain ⟨a, b, h⟩ := enableDNSOp_shape env st; rw [h]

@[simp] theorem enableDNSOp_dnsMuxMap (env : Env) (st : ServerState) :
    (enableDNSOp env st).dnsMuxMap = st.dnsMuxMap := by
  obtain ⟨a, b, h⟩ := enableDNSOp_shape env st; rw [h]

@[simp] theorem enableDNSOp_localRecords (env : Env) (st : ServerState) :
    (enableDNSOp env st).localRecords = st.localRecords := by
  obtain ⟨a, b, h⟩ := enableDNSOp_shape env st; rw [h]

@[simp] theorem enableDNSOp_extraDomains (env : Env) (st : ServerState) :
    (enableDNSOp env st).extraDomains = st.extraDomains := by
  obtain ⟨a, b, h⟩ := enableDNSOp_shape env st; rw [h]

@[simp] theorem enableDNSOp_ctxCancelled (env : Env) (st : ServerState) :
    (enableDNSOp env st).ctxCancelled = st.ctxCancelled := by
  obtain ⟨a, b, h⟩ := enableDNSOp_shape env st; rw [h]

@[simp] theorem disableDNSOp_currentConfig (env : Env) (st : ServerState) :
    (disableDNSOp env st).currentConfig = st.currentConfig := by
  obtain ⟨a, b, c, d, e, h⟩ := disableDNSOp_shape env st; rw [h]

@[simp] theorem disableDNSOp_updateSerial (env : Env) (st : ServerState) :
    (disableDNSOp env st).updateSerial = st.updateSerial := by
  obtain ⟨a, b, c, d, e, h⟩ := disableDNSOp_shape env st; rw [h]

@[simp] theorem disableDNSOp_previousConfigHash (env : Env) (st : ServerState) :
    (disableDNSOp env st).previousConfigHash = st.previousConfigHash := by
  obtain ⟨a, b, c, d, e, h⟩ := disableDNSOp_shape env st; rw [h]

@[simp] theorem disableDNSOp_dnsMuxMap (env : Env) (st : ServerState) :
    (disableDNSOp env st).dnsMuxMap = st.dnsMuxMap := by
  obtain ⟨a, b, c, d, e, h⟩ := disableDNSOp_shape env st; rw [h]

@[simp] theorem disableDNSOp_localRecords (env : Env) (st : ServerState) :
    (disableDNSOp env st).localRecords = st.localRecords := by
  obtain ⟨a, b, c, d, e, h⟩ := disableDNSOp_shape env st; rw [h]

@[simp] theorem disableDNSOp_extraDomains (env : Env) (st : ServerState) :
    (disableDNSOp env st).extraDomains = st.extraDomains := by
  obtain ⟨a, b, c, d, e, h⟩ := disableDNSOp_shape env st; rw [h]

@[simp] theorem disableDNSOp_ctxCancelled (env : Env) (st : ServerState) :
    (disableDNSOp env st).ctxCancelled = st.ctxCancelled := by
  obtain ⟨a, b, c, d, e, h⟩ := disableDNSOp_shape env st; rw [h]

@[simp] theorem updateMuxOp_currentConfig (env : Env) (st : ServerState) (u : List HandlerWrapper) :
    (updateMuxOp env st u).currentConfig = st.currentConfig := by
  obtain ⟨c, m, h⟩ := updateMuxOp_shape env st u; rw [h]

@[simp] theorem updateMuxOp_updateSerial (env : Env) (st : ServerState) (u : List HandlerWrapper) :
    (updateMuxOp env st u).updateSerial = st.updateSerial := by
  obtain ⟨c, m, h⟩ := updateMuxOp_shape env st u; rw [h]

@[simp] theorem updateMuxOp_extraDomains (env : Env) (st : ServerState) (u : List HandlerWrapper) :
    (updateMuxOp env st u).extraDomains = st.extraDomains := by
  obtain ⟨c, m, h⟩ := updateMuxOp_shape env st u; rw [h]

@[simp] theorem updateMuxOp_previousConfigHash (env : Env) (st : ServerState) (u : List HandlerWrapper) :
    (updateMuxOp env st u).previousConfigHash = st.previousConfigHash := by
  obtain ⟨c, m, h⟩ := updateMuxOp_shape env st u; rw [h]

@[simp] theorem updateMuxOp_localRecords (env : Env) (st : ServerState) (u : List HandlerWrapper) :
    (updateMuxOp env st u).localRecords = st.localRecords := by
  obtain ⟨c, m, h⟩ := updateMuxOp_shape env st u; rw [h]

@[simp] theorem updateMuxOp_ctxCancelled (env : Env) (st : ServerState) (u : List HandlerWrapper) :
    (updateMuxOp env st u).ctxCancelled = st.ctxCancelled := by
  obtain ⟨c, m, h⟩ := updateMuxOp_shape env st u; rw [h]

/-- The state `applyConfiguration` starts from after the service
enable/disable step. -/
def preState (env : Env) (st : ServerState) (update : Config) : ServerState :=
  if update.serviceEnable then enableDNSOp env st
  else if ¬st.permanent then disableDNSOp env st
  else st

theorem preState_five_fields (env : Env) (st : ServerState) (update : Config) :
    (preState env st update).currentConfig = st.currentConfig ∧
    (preState env st update).updateSerial = st.updateSerial ∧
    (preState env st update).previousConfigHash = st.previousConfigHash ∧
    (preState env st update).dnsMuxMap = st.dnsMuxMap ∧
    (preState env st update).localRecords = st.localRecords ∧
    (preState env st update).ctxCancelled = st.ctxCancelled := by
  unfold preState
  split
  · simp
  · split <;> simp

/-- On a config that passes validation, `applyConfiguration` reports no
error, installs the derived (and possibly custom-port-adjusted) host
config as `currentConfig`, stores the filtered local records, and keeps
the serial and hash fields. -/
theorem applyConfigurationOp_ok (env : Env) (st : ServerState) (update : Config)
    (hval : validateNSGroups update.nameServerGroups = none) :
    (applyConfigurationOp env st update).2 = none ∧
    (applyConfigurationOp env st update).1.currentConfig =
      (if ¬env.runtimePort = defaultPort ∧ ¬env.supportCustomPort then
        { dnsConfigToHostDNSConfig update env.runtimeIP env.runtimePort with routeAll := false }
      else dnsConfigToHostDNSConfig update env.runtimeIP env.runtimePort) ∧
    (applyConfigurationOp env st update).1.localRecords =
      (buildLocalHandlerUpdate update.customZones).2 ∧
    (applyConfigurationOp env st update).1.updateSerial = st.updateSerial ∧
    (applyConfigurationOp env st update).1.previousConfigHash = st.previousConfigHash := by
  obtain ⟨hcc, hus, hph, hmm, hlr, hcx⟩ := preState_five_fields env st update
  simp only [applyConfigurationOp, buildUpstreamHandlerUpdate, hval]
  rw [show (if update.serviceEnable then enableDNSOp env st
      else if ¬st.permanent then disableDNSOp env st else st) = preState env st update from rfl]
  refine ⟨by simp, ?_, ?_, ?_, ?_⟩ <;>
    · split <;> simp [hcc, hus, hph, hlr]

/-- On a config that fails validation, `applyConfiguration` reports the
error and the mux map, current config, local records, serial and hash are
all untouched. -/
theorem applyConfigurationOp_error (env : Env) (st : ServerState) (update : Config)
    (hval : (validateNSGroups update.nameServerGroups).isSome = true) :
    (applyConfigurationOp env st update).2.isSome = true ∧
    (applyConfigurationOp env st update).1.dnsMuxMap = st.dnsMuxMap ∧
    (applyConfigurationOp env st update).1.currentConfig = st.currentConfig ∧
    (applyConfigurationOp env st update).1.localRecords = st.localRecords ∧
    (applyConfigurationOp env st update).1.updateSerial = st.updateSerial ∧
    (applyConfigurationOp env st update).1.previousConfigHash = st.previousConfigHash := by
  obtain ⟨hcc, hus, hph, hmm, hlr, hcx⟩ := preState_five_fields env st update
  obtain ⟨e, he⟩ := Option.isSome_iff_exists.mp hval
  simp only [applyConfigurationOp, buildUpstreamHandlerUpdate, he]
  rw [show (if update.serviceEnable then enableDNSOp env st
      else if ¬st.permanent then disableDNSOp env st else st) = preState env st update from rfl]
  exact ⟨rfl, hmm, hcc, hlr, hus, hph⟩

/-! ## C6: search domains -/

/-- C6: `SearchDomains()` returns a domain if and only if that domain occurs
in an entry of `currentConfig.Domains` with `Disabled` and `MatchOnly` both
false. -/
theorem C6_searchDomains_iff (st : ServerState) (d : String) :
    d ∈ searchDomainsOp st ↔
      ∃ dc ∈ st.currentConfig.domains,
        dc.domain = d ∧ dc.disabled = false ∧ dc.matchOnly = false := by
  unfold searchDomainsOp
  simp only [List.mem_map, List.mem_filter, decide_eq_true_eq]
  constructor
  · rintro ⟨dc, ⟨hmem, hdis, hmo⟩, hdom⟩
    exact ⟨dc, hmem, hdom, by simpa using hdis, by simpa using hmo⟩
  · rintro ⟨dc, hmem, hdom, hdis, hmo⟩
    exact ⟨dc, ⟨hmem, by simp [hdis], by simp [hmo]⟩, hdom⟩

/-! ## C1: serial monotonicity -/

/-- C1: a stale update (serial strictly below the last applied one) returns
an error and leaves the whole state untouched, and any call that returns
nil stores exactly the requested serial. -/
theorem C1_serial_monotone (env : Env) (st : ServerState) (serial : Nat) (update : Config) :
    (serial < st.updateSerial →
      (updateDNSServerOp env st serial update).1 = st ∧
      (updateDNSServerOp env st serial update).2.isSome = true) ∧
    ((updateDNSServerOp env st serial update).2 = none →
      (updateDNSServerOp env st serial update).1.updateSerial = serial) := by
  constructor
  · intro hlt
    by_cases hctx : st.ctxCancelled = true
    · simp [updateDNSServerOp, hctx]
    · simp [updateDNSServerOp, hctx, hlt]
  · intro hnone
    by_cases hctx : st.ctxCancelled = true
    · simp [updateDNSServerOp, hctx] at hnone
    · by_cases hlt : serial < st.updateSerial
      · simp [updateDNSServerOp, hctx, hlt] at hnone
      · by_cases hh : st.previousConfigHash = env.hashFn update
        · simp [updateDNSServerOp, hctx, hlt, hh]
        · rcases happ : applyConfigurationOp env st update with ⟨st', e⟩
          cases e with
          | none => simp [updateDNSServerOp, hctx, hlt, hh, happ]
          | some err => simp [updateDNSServerOp, hctx, hlt, hh, happ] at hnone

/-! ## C3: equal-hash updates advance the serial only -/

/-- C3: when the structural hash of the config equals the stored previous
hash (and the call passes the context and staleness gates), the call
returns nil and the entire state is unchanged except that the serial
becomes the requested one. -/
theorem C3_equal_hash_frame (env : Env) (st : ServerState) (serial : Nat) (update : Config)
    (hctx : st.ctxCancelled = false) (hser : st.updateSerial ≤ serial)
    (hhash : st.previousConfigHash = env.hashFn update) :
    updateDNSServerOp env st serial update = ({ st with updateSerial := serial }, none) := by
  unfold updateDNSServerOp
  rw [if_neg (by simp [hctx]), if_neg (by omega), if_pos hhash]

/-! ## C10: an equal serial is not stale -/

/-- C10: an update whose serial equals the last applied serial passes the
staleness gate; with a fresh hash and a valid config it is applied (the
current config is overwritten from the new config and the hash stored),
and more generally every serial at least the stored one is accepted. -/
theorem C10_equal_serial_applies (env : Env) (st : ServerState) (update : Config)
    (hctx : st.ctxCancelled = false)
    (hhash : ¬st.previousConfigHash = env.hashFn update)
    (hval : validateNSGroups update.nameServerGroups = none) :
    (updateDNSServerOp env st st.updateSerial update).2 = none ∧
    (updateDNSServerOp env st st.updateSerial update).1.updateSerial = st.updateSerial ∧
    (updateDNSServerOp env st st.updateSerial update).1.previousConfigHash = env.hashFn update ∧
    (updateDNSServerOp env st st.updateSerial update).1.currentConfig =
      (if ¬env.runtimePort = defaultPort ∧ ¬env.supportCustomPort then
        { dnsConfigToHostDNSConfig update env.runtimeIP env.runtimePort with routeAll := false }
      else dnsConfigToHostDNSConfig update env.runtimeIP env.runtimePort) ∧
    (∀ s, st.updateSerial ≤ s → (updateDNSServerOp env st s update).2 = none) := by
  obtain ⟨hsnd, hcc, hlr, hus, hph⟩ := applyConfigurationOp_ok env st update hval
  rcases happ : applyConfigurationOp env st update with ⟨st', e⟩
  rw [happ] at hsnd hcc
  cases e with
  | some err => cases hsnd
  | none =>
    have hmain : ∀ s, st.updateSerial ≤ s →
        updateDNSServerOp env st s update =
          ({ st' with updateSerial := s, previousConfigHash := env.hashFn update }, none) := by
      intro s hs
      unfold updateDNSServerOp
      rw [if_neg (by simp [hctx]), if_neg (by omega)]
      simp only [if_neg (fun h => hhash h), happ]
    refine ⟨?_, ?_, ?_, ?_, ?_⟩
    · rw [hmain st.updateSerial le_rfl]
    · rw [hmain st.updateSerial le_rfl]
    · rw [hmain st.updateSerial le_rfl]
    · rw [hmain st.updateSerial le_rfl]; exact hcc
    · intro s hs; rw [hmain s hs]

/-! ## C4: malformed groups are rejected without applying -/

/-- A malformed group that still carries nameservers makes validation
fail. -/
theorem validateNSGroups_isSome_of_malformed (gs : List NameServerGroup)
    (h : ∃ g ∈ gs, g.nameServers.isEmpty = false ∧
        ((g.primary = false ∧ g.domains.isEmpty = true) ∨ g.domains.contains "" = true)) :
    (validateNSGroups gs).isSome = true := by
  induction gs with
  | nil => simp at h
  | cons g rest ih =>
    obtain ⟨g', hg', hNS, hmal⟩ := h
    unfold validateNSGroups
    rcases List.mem_cons.mp hg' with heq | hmem
    · subst heq
      rw [if_neg (by simp [hNS])]
      rcases hmal with ⟨hp, hd⟩ | hcont
      · rw [if_pos (by simp [hp, hd])]; rfl
      · by_cases hpd : ¬g'.primary = true ∧ g'.domains.isEmpty = true
        · rw [if_pos hpd]; rfl
        · rw [if_neg hpd, if_pos hcont]; rfl
    · have hrest := ih ⟨g', hmem, hNS, hmal⟩
      split
      · exact hrest
      · split
        · rfl
        · split
          · rfl
          · exact hrest

/-- C4 (amended): a config whose hash is fresh and that contains a group
with a non-empty nameserver list which is non-primary with no domains, or
lists an empty domain string, makes `UpdateDNSServer` return an error, and
the handler map, current config, local records, serial and previous hash
are unchanged. -/
theorem C4_malformed_group_rejected (env : Env) (st : ServerState) (serial : Nat)
    (update : Config)
    (hhash : ¬st.previousConfigHash = env.hashFn update)
    (hmal : ∃ g ∈ update.nameServerGroups, g.nameServers.isEmpty = false ∧
        ((g.primary = false ∧ g.domains.isEmpty = true) ∨ g.domains.contains "" = true)) :
    (updateDNSServerOp env st serial update).2.isSome = true ∧
    (updateDNSServerOp env st serial update).1.dnsMuxMap = st.dnsMuxMap ∧
    (updateDNSServerOp env st serial update).1.currentConfig = st.currentConfig ∧
    (updateDNSServerOp env st serial update).1.localRecords = st.localRecords ∧
    (updateDNSServerOp env st serial update).1.updateSerial = st.updateSerial ∧
    (updateDNSServerOp env st serial update).1.previousConfigHash = st.previousConfigHash := by
  by_cases hctx : st.ctxCancelled = true
  · simp [updateDNSServerOp, hctx]
  · by_cases hlt : serial < st.updateSerial
    · simp [updateDNSServerOp, hctx, hlt]
    · obtain ⟨hsnd, hmm, hcc, hlr, hus, hph⟩ :=
        applyConfigurationOp_error env st update
          (validateNSGroups_isSome_of_malformed update.nameServerGroups hmal)
      rcases happ : applyConfigurationOp env st update with ⟨st', e⟩
      rw [happ] at hsnd hmm hcc hlr hus hph
      cases e with
      | none => cases hsnd
      | some err =>
        simp only [updateDNSServerOp, if_neg hctx, if_neg hlt,
          if_neg (fun h => hhash h), happ]
        exact ⟨rfl, hmm, hcc, hlr, hus, hph⟩

/-! ## C9: behaviour after context cancellation -/

/-- C9 (amended): with a cancelled context, `UpdateDNSServer` returns the
context error and changes nothing, and `applyHostConfig` is a no-op, so no
operation changes the host configuration; however `RegisterHandler` and
`DeregisterHandler` do not check the context (their chain and refcount
mutations still happen, which is why the original claim fails). -/
theorem C9_cancelled_ops (env : Env) (st : ServerState) (serial : Nat) (update : Config)
    (D : List String) (h : DnsHandler) (p : Int)
    (hctx : st.ctxCancelled = true) :
    updateDNSServerOp env st serial update = (st, some "context canceled") ∧
    applyHostConfigOp env st = st ∧
    (RegisterHandlerOp env st D h p).hostApplied = st.hostApplied ∧
    (DeregisterHandlerOp env st D p).hostApplied = st.hostApplied := by
  refine ⟨by simp [updateDNSServerOp, hctx], ?_, ?_, ?_⟩
  · unfold applyHostConfigOp
    rw [if_pos hctx]
  · unfold RegisterHandlerOp
    unfold applyHostConfigOp
    rw [if_pos (by simpa [registerHandlerInternal] using hctx)]
    rfl
  · unfold DeregisterHandlerOp
    unfold applyHostConfigOp
    rw [if_pos (by simpa [deregisterHandlerInternal] using hctx)]
    rfl

/-! ## Concrete fixtures for witnesses and counterexamples -/

/-- A fixed external environment for concrete evaluations. -/
def env0 : Env :=
  { hashFn := fun _ => 1, restoreSucceeds := true, supportCustomPort := true,
    originalNS := [], runtimeIP := "100.64.0.2", runtimePort := 53,
    disableSys := false, netstackEnabled := false, goosAndroid := false,
    hostsDNSList := [] }

/-- An empty host DNS config. -/
def hostCfg0 : HostDNSConfig :=
  { serverIP := "", serverPort := 0, routeAll := false, domains := [] }

/-- A freshly constructed server state. -/
def st0 : ServerState :=
  { ctxCancelled := false, permanent := false, updateSerial := 0,
    previousConfigHash := 0, currentConfig := hostCfg0, dnsMuxMap := [],
    handlerChain := [], extraDomains := [], localRecords := [],
    hostManagerNoop := true, serviceRunning := false, hostApplied := none,
    checkpointExists := false }

/-- A state that has applied an update with serial 10. -/
def st10 : ServerState := { st0 with updateSerial := 10 }

/-- A state whose context has been cancelled. -/
def stC : ServerState := { st0 with ctxCancelled := true }

/-- A benign config with one primary UDP group. -/
def cfgA : Config :=
  { serviceEnable := true, customZones := [],
    nameServerGroups := [{ nameServers := [{ ip := "1.1.1.1", port := 53, nsType := .udp }],
                           domains := [], primary := true, searchDomainsEnabled := false }] }

/-- A config whose only group is non-primary with no domains and also no
nameservers: the validation loop skips it entirely. -/
def cfgEmptyNS : Config :=
  { serviceEnable := false, customZones := [],
    nameServerGroups := [{ nameServers := [], domains := [], primary := false,
                           searchDomainsEnabled := false }] }

/-- A malformed group: non-primary, no domains, but with a nameserver. -/
def malformedGroup : NameServerGroup :=
  { nameServers := [{ ip := "1.1.1.1", port := 53, nsType := .udp }],
    domains := [], primary := false, searchDomainsEnabled := false }

/-- A config with a malformed group that does carry nameservers. -/
def cfgMalformed : Config :=
  { serviceEnable := false, customZones := [], nameServerGroups := [malformedGroup] }

/-- Witness for C1 at a concrete stale call: serial 5 against stored 10. -/
theorem C1_serial_monotone_witness :
    5 < st10.updateSerial ∧
      ((updateDNSServerOp env0 st10 5 cfgA).1 = st10 ∧
       (updateDNSServerOp env0 st10 5 cfgA).2.isSome = true) :=
  ⟨by decide, (C1_serial_monotone env0 st10 5 cfgA).1 (by decide)⟩

/-- Witness for C3: equal-hash update with serial 12 against stored 10. -/
theorem C3_equal_hash_frame_witness :
    st10.ctxCancelled = false ∧ st10.updateSerial ≤ 12 ∧
      { st10 with previousConfigHash := 1 }.previousConfigHash = env0.hashFn cfgA ∧
      updateDNSServerOp env0 { st10 with previousConfigHash := 1 } 12 cfgA =
        ({ st10 with previousConfigHash := 1, updateSerial := 12 }, none) :=
  ⟨rfl, by decide, rfl,
    C3_equal_hash_frame env0 { st10 with previousConfigHash := 1 } 12 cfgA rfl (by decide) rfl⟩

/-- Witness for C10 at a concrete state and config. -/
theorem C10_equal_serial_applies_witness :
    (updateDNSServerOp env0 st10 st10.updateSerial cfgA).2 = none ∧
    (updateDNSServerOp env0 st10 st10.updateSerial cfgA).1.updateSerial = st10.updateSerial :=
  ⟨(C10_equal_serial_applies env0 st10 cfgA rfl (by decide) rfl).1,
   (C10_equal_serial_applies env0 st10 cfgA rfl (by decide) rfl).2.1⟩

/-- Counterexample for C4 as stated: a malformed group (non-primary, empty
domain list) whose nameserver list is empty is skipped by validation, so
`UpdateDNSServer` returns nil instead of an error. -/
theorem C4_counterexample :
    ({ nameServers := [], domains := [], primary := false,
       searchDomainsEnabled := false } : NameServerGroup) ∈ cfgEmptyNS.nameServerGroups ∧
    (updateDNSServerOp env0 st0 0 cfgEmptyNS).2 = none := by
  decide

/-- Witness for C4 (amended) at a concrete malformed config. -/
theorem C4_malformed_group_rejected_witness :
    (updateDNSServerOp env0 st0 0 cfgMalformed).2.isSome = true ∧
    (updateDNSServerOp env0 st0 0 cfgMalformed).1.currentConfig = st0.currentConfig :=
  ⟨(C4_malformed_group_rejected env0 st0 0 cfgMalformed (by decide)
      ⟨malformedGroup, by decide, by decide, by decide⟩).1,
   (C4_malformed_group_rejected env0 st0 0 cfgMalformed (by decide)
      ⟨malformedGroup, by decide, by decide, by decide⟩).2.2.1⟩

/-- Counterexample for C9 as stated: after cancellation, `RegisterHandler`
still mutates the extra-domain refcounts (and performs no error return),
so "every operation ... performs no side effects" fails. -/
theorem C9_counterexample :
    stC.ctxCancelled = true ∧
    ¬(RegisterHandlerOp env0 stC ["example.com"] .localResolver 200).extraDomains
        = stC.extraDomains := by
  decide

/-- Witness for C9 (amended) at the concrete cancelled state. -/
theorem C9_cancelled_ops_witness :
    updateDNSServerOp env0 stC 3 cfgA = (stC, some "context canceled") ∧
    applyHostConfigOp env0 stC = stC :=
  ⟨(C9_cancelled_ops env0 stC 3 cfgA ["example.com"] .localResolver 200 rfl).1,
   (C9_cancelled_ops env0 stC 3 cfgA ["example.com"] .localResolver 200 rfl).2.1⟩

/-! ## C8: teardown on Stop -/

/-- C8: with a real (non-noop) host manager and a successful restore,
`Stop` cancels the context (every handler is built over the orchestrator's
context, so cancellation stops them — spec section 5), stops the service,
leaves the host DNS at its captured original configuration, deletes the
shutdown checkpoint, and clears the extra-domain refcounts. -/
theorem C8_stop_teardown (env : Env) (st : ServerState)
    (hnoop : st.hostManagerNoop = false) (hres : env.restoreSucceeds = true) :
    (stopOp env st).ctxCancelled = true ∧
    (stopOp env st).serviceRunning = false ∧
    (stopOp env st).hostApplied = none ∧
    (stopOp env st).checkpointExists = false ∧
    (stopOp env st).hostManagerNoop = true ∧
    (stopOp env st).extraDomains = [] := by
  simp only [stopOp, disableDNSOp]
  rw [if_neg (by simp [hnoop])]
  split <;> split <;> simp_all [deregisterHandlerInternal]

/-- A running state with a real host manager and live host-side state. -/
def stRun : ServerState :=
  { st0 with hostManagerNoop := false, serviceRunning := true,
             hostApplied := some hostCfg0, checkpointExists := true,
             extraDomains := [("acl.example.", 1)] }

/-- Witness for C8 at a concrete running state. -/
theorem C8_stop_teardown_witness :
    stRun.hostManagerNoop = false ∧ env0.restoreSucceeds = true ∧
      ((stopOp env0 stRun).ctxCancelled = true ∧
       (stopOp env0 stRun).serviceRunning = false ∧
       (stopOp env0 stRun).hostApplied = none ∧
       (stopOp env0 stRun).checkpointExists = false ∧
       (stopOp env0 stRun).hostManagerNoop = true ∧
       (stopOp env0 stRun).extraDomains = []) :=
  ⟨rfl, rfl, C8_stop_teardown env0 stRun rfl rfl⟩

/-! ## C2: priority tiers never alias -/

/-- A placeholder group used as the `getD` default in statements. -/
def emptyGroup : NameServerGroup :=
  { nameServers := [], domains := [], primary := false, searchDomainsEnabled := false }

/-- The loop for a non-root zone stops exactly when the group index reaches
the upstream/default tier gap. -/
theorem leaksPriority_upstream_iff (j : Nat) :
    leaksPriority PriorityUpstream (PriorityUpstream - (j : Int)) = true ↔ 100 ≤ j := by
  simp [leaksPriority, PriorityUpstream, PriorityDefault, PriorityFallback]
  omega

/-- The loop for the root zone stops exactly when the group index reaches
the default/fallback tier gap. -/
theorem leaksPriority_default_iff (j : Nat) :
    leaksPriority PriorityDefault (PriorityDefault - (j : Int)) = true ↔ 50 ≤ j := by
  simp [leaksPriority, PriorityUpstream, PriorityDefault, PriorityFallback]
  omega

/-- Membership characterization of the per-zone handler construction: a
wrapper is produced exactly for a group index below the tier gap whose
group retains a usable UDP server, with priority `base - index`. -/
theorem mem_createHandlersAux (dom : String) (base : Int) (gap : Nat)
    (hgap : ∀ j : Nat, leaksPriority base (base - (j : Int)) = true ↔ gap ≤ j)
    (gs : List NameServerGroup) :
    ∀ (i : Nat) (w : HandlerWrapper),
      w ∈ createHandlersAux dom base i gs ↔
        ∃ k, k < gs.length ∧ i + k < gap ∧
          (udpServers (gs.getD k emptyGroup)).isEmpty = false ∧
          w = { domain := dom,
                handler := .upstream dom (udpServers (gs.getD k emptyGroup)),
                priority := base - (((i + k : Nat)) : Int) } := by
  induction gs with
  | nil =>
    intro i w
    simp [createHandlersAux]
  | cons g rest ih =>
    intro i w
    by_cases hleak : gap ≤ i
    · have hl : leaksPriority base (base - (i : Int)) = true := (hgap i).mpr hleak
      simp only [createHandlersAux, hl, if_true, List.not_mem_nil, false_iff]
      rintro ⟨k, hk, hik, -⟩
      omega
    · have hl : leaksPriority base (base - (i : Int)) = false :=
        Bool.eq_false_iff.mpr (fun h => hleak ((hgap i).mp h))
      simp only [createHandlersAux, hl, Bool.false_eq_true, if_false]
      by_cases hemp : (udpServers g).isEmpty = true
      · rw [if_pos hemp, ih (i + 1) w]
        constructor
        · rintro ⟨k, hk, hik, hud, hw⟩
          have hnk : (i + 1) + k = i + (k + 1) := by omega
          rw [hnk] at hw
          exact ⟨k + 1, by simp only [List.length_cons]; omega,
            by omega, by simpa using hud, hw⟩
        · rintro ⟨k, hk, hik, hud, hw⟩
          cases k with
          | zero =>
            rw [List.getD_cons_zero] at hud
            rw [hud] at hemp
            cases hemp
          | succ k' =>
            rw [List.getD_cons_succ] at hud hw
            simp only [List.length_cons] at hk
            have hnk : i + (k' + 1) = (i + 1) + k' := by omega
            rw [hnk] at hw
            exact ⟨k', by omega, by omega, hud, hw⟩
      · rw [if_neg hemp]
        rw [List.mem_cons, ih (i + 1) w]
        constructor
        · rintro (hw | ⟨k, hk, hik, hud, hw⟩)
          · refine ⟨0, by simp, by omega, ?_, ?_⟩
            · rw [List.getD_cons_zero]
              exact Bool.eq_false_iff.mpr hemp
            · simp only [List.getD_cons_zero, Nat.add_zero]
              exact hw
          · have hnk : (i + 1) + k = i + (k + 1) := by omega
            rw [hnk] at hw
            exact ⟨k + 1, by simp only [List.length_cons]; omega,
              by omega, by simpa using hud, hw⟩
        · rintro ⟨k, hk, hik, hud, hw⟩
          cases k with
          | zero =>
            left
            simp only [List.getD_cons_zero, Nat.add_zero] at hw
            exact hw
          | succ k' =>
            right
            rw [List.getD_cons_succ] at hud hw
            simp only [List.length_cons] at hk
            have hnk : i + (k' + 1) = (i + 1) + k' := by omega
            rw [hnk] at hw
            exact ⟨k', by omega, by omega, hud, hw⟩

/-- When every group keeps at least one UDP server, the per-zone handler
list is exactly the first `gap` groups (fewer if the zone has fewer), in
order, at priorities `base - index`. -/
theorem createHandlersAux_full (dom : String) (base : Int) (gap : Nat)
    (hgap : ∀ j : Nat, leaksPriority base (base - (j : Int)) = true ↔ gap ≤ j)
    (gs : List NameServerGroup) :
    ∀ i : Nat, (∀ g ∈ gs, (udpServers g).isEmpty = false) →
      createHandlersAux dom base i gs =
        (List.range (min (gap - i) gs.length)).map
          (fun k => { domain := dom,
                      handler := .upstream dom (udpServers (gs.getD k emptyGroup)),
                      priority := base - (((i + k : Nat)) : Int) }) := by
  induction gs with
  | nil =>
    intro i _
    simp [createHandlersAux]
  | cons g rest ih =>
    intro i hud
    by_cases hleak : gap ≤ i
    · have hl : leaksPriority base (base - (i : Int)) = true := (hgap i).mpr hleak
      have hmin : min (gap - i) (g :: rest).length = 0 := by
        simp [Nat.sub_eq_zero_of_le hleak]
      simp only [createHandlersAux, hl, if_true, hmin, List.range_zero, List.map_nil]
    · have hl : leaksPriority base (base - (i : Int)) = false :=
        Bool.eq_false_iff.mpr (fun h => hleak ((hgap i).mp h))
      have hg : (udpServers g).isEmpty = false := hud g (List.mem_cons_self g rest)
      simp only [createHandlersAux, hl, Bool.false_eq_true, if_false, hg]
      rw [ih (i + 1) (fun g' hg' => hud g' (List.mem_cons_of_mem g hg'))]
      have hmin : min (gap - i) (g :: rest).length = min (gap - (i + 1)) rest.length + 1 := by
        simp only [List.length_cons]
        omega
      rw [hmin, List.range_succ_eq_map, List.map_cons, List.map_map]
      congr 1
      apply List.map_congr_left
      intro k _
      simp only [Function.comp_apply, List.getD_cons_succ]
      have hnk : i + 1 + k = i + (k + 1) := by omega
      rw [hnk]

/-- Membership in a fold that appends per-element lists. -/
theorem mem_foldl_append {α β : Type} (f : α → List β) :
    ∀ (l : List α) (acc : List β) (b : β),
      b ∈ l.foldl (fun a x => a ++ f x) acc ↔ b ∈ acc ∨ ∃ x ∈ l, b ∈ f x := by
  intro l
  induction l with
  | nil => simp
  | cons x t ih =>
    intro acc b
    rw [List.foldl_cons, ih]
    simp [List.mem_append, or_assoc]

/-- C2 (amended): priority tiers never alias — in the upstream handler set
built from a config update, every root-zone handler has priority in
`(PriorityFallback, PriorityDefault]` and every non-root handler in
`(PriorityDefault, PriorityUpstream]`; a handler exists exactly for each
group index below the tier gap whose group retains a UDP server, at
priority `base - index` (so the group hitting the gap and all later groups
for that zone are dropped); when every group of a zone retains a UDP
server, exactly the first `K = PriorityUpstream - PriorityDefault` groups
are registered (all of them if the zone has fewer); the tier gaps are 100
and 50. -/
theorem C2_priority_tiers :
    (∀ (gs : List NameServerGroup) (l : List HandlerWrapper),
      buildUpstreamHandlerUpdate gs = .ok l → ∀ w ∈ l,
        (w.domain = RootZone →
          PriorityFallback < w.priority ∧ w.priority ≤ PriorityDefault) ∧
        (¬w.domain = RootZone →
          PriorityDefault < w.priority ∧ w.priority ≤ PriorityUpstream)) ∧
    (∀ (dg : NsGroupsByDomain) (w : HandlerWrapper),
      w ∈ createHandlersForDomainGroup dg PriorityUpstream ↔
        ∃ k, k < dg.groups.length ∧ k < 100 ∧
          (udpServers (dg.groups.getD k emptyGroup)).isEmpty = false ∧
          w = { domain := dg.domain,
                handler := .upstream dg.domain (udpServers (dg.groups.getD k emptyGroup)),
                priority := PriorityUpstream - (k : Int) }) ∧
    (∀ (dg : NsGroupsByDomain) (w : HandlerWrapper),
      w ∈ createHandlersForDomainGroup dg PriorityDefault ↔
        ∃ k, k < dg.groups.length ∧ k < 50 ∧
          (udpServers (dg.groups.getD k emptyGroup)).isEmpty = false ∧
          w = { domain := dg.domain,
                handler := .upstream dg.domain (udpServers (dg.groups.getD k emptyGroup)),
                priority := PriorityDefault - (k : Int) }) ∧
    (∀ dg : NsGroupsByDomain, (∀ g ∈ dg.groups, (udpServers g).isEmpty = false) →
      createHandlersForDomainGroup dg PriorityUpstream =
        (List.range (min 100 dg.groups.length)).map
          (fun k => { domain := dg.domain,
                      handler := .upstream dg.domain (udpServers (dg.groups.getD k emptyGroup)),
                      priority := PriorityUpstream - (k : Int) })) ∧
    (PriorityUpstream - PriorityDefault = (100 : Int) ∧
     PriorityDefault - PriorityFallback = (50 : Int)) := by
  have memU : ∀ (dg : NsGroupsByDomain) (w : HandlerWrapper),
      w ∈ createHandlersForDomainGroup dg PriorityUpstream ↔
        ∃ k, k < dg.groups.length ∧ k < 100 ∧
          (udpServers (dg.groups.getD k emptyGroup)).isEmpty = false ∧
          w = { domain := dg.domain,
                handler := .upstream dg.domain (udpServers (dg.groups.getD k emptyGroup)),
                priority := PriorityUpstream - (k : Int) } := by
    intro dg w
    have h := mem_createHandlersAux dg.domain PriorityUpstream 100
      leaksPriority_upstream_iff dg.groups 0 w
    simpa [createHandlersForDomainGroup] using h
  have memD : ∀ (dg : NsGroupsByDomain) (w : HandlerWrapper),
      w ∈ createHandlersForDomainGroup dg PriorityDefault ↔
        ∃ k, k < dg.groups.length ∧ k < 50 ∧
          (udpServers (dg.groups.getD k emptyGroup)).isEmpty = false ∧
          w = { domain := dg.domain,
                handler := .upstream dg.domain (udpServers (dg.groups.getD k emptyGroup)),
                priority := PriorityDefault - (k : Int) } := by
    intro dg w
    have h := mem_createHandlersAux dg.domain PriorityDefault 50
      leaksPriority_default_iff dg.groups 0 w
    simpa [createHandlersForDomainGroup] using h
  refine ⟨?_, memU, memD, ?_, by decide, by decide⟩
  · intro gs l hok w hw
    rcases hv : validateNSGroups gs with - | e
    · simp only [buildUpstreamHandlerUpdate, hv] at hok
      rw [Except.ok.injEq] at hok
      rw [← hok] at hw
      rw [mem_foldl_append] at hw
      rcases hw with h | ⟨dg, -, hdg⟩
      · cases h
      · by_cases hroot : dg.domain = RootZone
        · rw [if_pos hroot] at hdg
          rw [memD dg w] at hdg
          obtain ⟨k, -, hk50, -, hw⟩ := hdg
          subst hw
          refine ⟨fun _ => ?_, fun hnr => absurd hroot hnr⟩
          simp only [PriorityDefault, PriorityFallback]
          omega
        · rw [if_neg hroot] at hdg
          rw [memU dg w] at hdg
          obtain ⟨k, -, hk100, -, hw⟩ := hdg
          subst hw
          refine ⟨fun hr => absurd hr hroot, fun _ => ?_⟩
          simp only [PriorityDefault, PriorityUpstream]
          omega
    · simp only [buildUpstreamHandlerUpdate, hv] at hok
      cases hok
  · intro dg hud
    have h := createHandlersAux_full dg.domain PriorityUpstream 100
      leaksPriority_upstream_iff dg.groups 0 hud
    simpa [createHandlersForDomainGroup] using h

/-- A group with only a TCP nameserver: valid per the validation loop, but
it yields no usable UDP server, so no handler is created for it. -/
def tcpGroup : NameServerGroup :=
  { nameServers := [{ ip := "10.0.0.1", port := 53, nsType := .tcp }],
    domains := ["internal."], primary := false, searchDomainsEnabled := false }

/-- A zone claimed by 101 TCP-only groups: more groups than the tier gap. -/
def dgTcp : NsGroupsByDomain :=
  { domain := "internal.", groups := List.replicate 101 tcpGroup }

/-- Counterexample for C2 as stated: for a zone with more groups than the
tier gap `K = PriorityUpstream - PriorityDefault = 100`, the code does not
register exactly the first `K` groups — a group without a usable UDP
server is skipped, so here zero handlers are registered. -/
theorem C2_counterexample :
    PriorityUpstream - PriorityDefault = (100 : Int) ∧
    100 < dgTcp.groups.length ∧
    (createHandlersForDomainGroup dgTcp PriorityUpstream).length = 0 ∧
    ¬(createHandlersForDomainGroup dgTcp PriorityUpstream).length = 100 := by
  decide

/-- Two healthy UDP groups for one zone. -/
def dgSmall : NsGroupsByDomain :=
  { domain := "corp.internal.",
    groups := [{ nameServers := [{ ip := "10.0.0.53", port := 53, nsType := .udp }],
                 domains := ["corp.internal."], primary := false, searchDomainsEnabled := false },
               { nameServers := [{ ip := "10.0.0.54", port := 53, nsType := .udp }],
                 domains := ["corp.internal."], primary := false, searchDomainsEnabled := false }] }

/-- Witness for C2 (amended): the all-UDP characterization applied to a
concrete two-group zone. -/
theorem C2_priority_tiers_witness :
    (∀ g ∈ dgSmall.groups, (udpServers g).isEmpty = false) ∧
    createHandlersForDomainGroup dgSmall PriorityUpstream =
      (List.range (min 100 dgSmall.groups.length)).map
        (fun k => { domain := dgSmall.domain,
                    handler := .upstream dgSmall.domain (udpServers (dgSmall.groups.getD k emptyGroup)),
                    priority := PriorityUpstream - (k : Int) }) :=
  ⟨by decide, C2_priority_tiers.2.2.2.1 dgSmall (by decide)⟩

/-! ## C7: register/deregister are refcount inverses -/

/-- The refcount a zone maps to (0 when absent). -/
def refCount (m : List (String × Int)) (w : String) : Int :=
  (lookupRef m w).getD 0

/-- All stored refcounts are positive: the invariant of `extraDomains`
(registration starts counts at 1, deregistration deletes at 0). -/
def PosRef (m : List (String × Int)) : Prop :=
  ∀ q ∈ m, 1 ≤ q.2

theorem lookupRef_eq_none_of_not_mem (m : List (String × Int)) (z : String)
    (h : z ∉ m.map Prod.fst) : lookupRef m z = none := by
  induction m with
  | nil => rfl
  | cons p rest ih =>
    obtain ⟨k, v⟩ := p
    simp only [List.map_cons, List.mem_cons] at h
    push_neg at h
    simp only [lookupRef]
    rw [if_neg (fun hk : k = z => h.1 hk.symm)]
    exact ih h.2

theorem lookupRef_incrRef (m : List (String × Int)) (z w : String) :
    lookupRef (incrRef m z) w =
      if w = z then some ((lookupRef m z).getD 0 + 1) else lookupRef m w := by
  induction m with
  | nil =>
    by_cases hw : w = z
    · rw [if_pos hw]
      simp only [incrRef, lookupRef, if_pos hw.symm]
      rfl
    · rw [if_neg hw]
      simp only [incrRef, lookupRef, if_neg (fun h : z = w => hw h.symm)]
  | cons p rest ih =>
    obtain ⟨k, v⟩ := p
    by_cases hk : k = z
    · simp only [incrRef, if_pos hk, lookupRef]
      by_cases hkw : k = w
      · rw [if_pos hkw, if_pos (hkw.symm.trans hk)]
        rfl
      · rw [if_neg hkw, if_neg hkw,
          if_neg (fun h : w = z => hkw ((hk.trans h.symm)))]
    · simp only [incrRef, if_neg hk, lookupRef]
      by_cases hkw : k = w
      · rw [if_pos hkw, if_pos hkw,
          if_neg (fun h : w = z => hk (hkw.trans h))]
      · rw [if_neg hkw, if_neg hkw]
        exact ih

theorem lookupRef_decrRef (m : List (String × Int)) (z w : String)
    (hnd : (m.map Prod.fst).Nodup) :
    lookupRef (decrRef m z) w =
      if w = z then
        (match lookupRef m z with
         | none => none
         | some v => if v - 1 ≤ 0 then none else some (v - 1))
      else lookupRef m w := by
  induction m with
  | nil =>
    by_cases hw : w = z
    · rw [if_pos hw]
      rfl
    · rw [if_neg hw]
      rfl
  | cons p rest ih =>
    obtain ⟨k, v⟩ := p
    simp only [List.map_cons, List.nodup_cons] at hnd
    obtain ⟨hk_not, hnd'⟩ := hnd
    by_cases hk : k = z
    · have hrestz : lookupRef rest z = none := by
        apply lookupRef_eq_none_of_not_mem
        intro hmem
        exact hk_not (hk ▸ hmem)
      by_cases hv : v - 1 ≤ 0
      · simp only [decrRef, if_pos hk, if_pos hv, lookupRef]
        by_cases hw : w = z
        · rw [if_pos hw, hw]
          exact hrestz
        · rw [if_neg hw, if_neg (fun h : k = w => hw (h ▸ hk))]
      · simp only [decrRef, if_pos hk, if_neg hv, lookupRef]
        by_cases hkw : k = w
        · rw [if_pos hkw, if_pos (hkw ▸ hk)]
        · rw [if_neg hkw, if_neg (fun h : w = z => hkw (hk.trans h.symm)), if_neg hkw]
    · simp only [decrRef, if_neg hk, lookupRef, if_neg hk]
      by_cases hkw : k = w
      · rw [if_pos hkw, if_neg (fun h : w = z => hk (hkw.trans h)), if_pos hkw]
      · rw [if_neg hkw, if_neg hkw, ih hnd']

theorem refCount_incrRef (m : List (String × Int)) (z w : String) :
    refCount (incrRef m z) w = refCount m w + if w = z then 1 else 0 := by
  unfold refCount
  rw [lookupRef_incrRef]
  by_cases hw : w = z
  · subst hw; simp
  · simp [hw]

theorem mem_of_lookupRef_eq_some (m : List (String × Int)) (w : String) (v : Int) :
    lookupRef m w = some v → (w, v) ∈ m := by
  induction m with
  | nil => intro hl; cases hl
  | cons p rest ih =>
    intro hl
    obtain ⟨k, u⟩ := p
    by_cases hk : k = w
    · subst hk
      simp only [lookupRef, if_pos rfl] at hl
      cases hl
      exact List.mem_cons_self _ _
    · simp only [lookupRef, if_neg hk] at hl
      exact List.mem_cons_of_mem _ (ih hl)

theorem refCount_decrRef (m : List (String × Int)) (z w : String)
    (hnd : (m.map Prod.fst).Nodup) (hpos : PosRef m) :
    refCount (decrRef m z) w =
      if w = z then max (refCount m w - 1) 0 else refCount m w := by
  unfold refCount
  rw [lookupRef_decrRef m z w hnd]
  by_cases hw : w = z
  · subst hw
    rw [if_pos rfl, if_pos rfl]
    rcases hl : lookupRef m w with - | v
    · show (0 : Int) = (0 - 1) ⊔ 0
      omega
    · have hv : 1 ≤ v := hpos _ (mem_of_lookupRef_eq_some m w v hl)
      show (if v - 1 ≤ 0 then none else some (v - 1)).getD 0 = (v - 1) ⊔ 0
      by_cases h1 : v - 1 ≤ 0
      · rw [if_pos h1]
        show (0 : Int) = (v - 1) ⊔ 0
        omega
      · rw [if_neg h1]
        show v - 1 = (v - 1) ⊔ 0
        omega
  · rw [if_neg hw, if_neg hw]

theorem incrRef_pos (m : List (String × Int)) (z : String) (hpos : PosRef m) :
    PosRef (incrRef m z) := by
  induction m with
  | nil =>
    intro q hq
    simp only [incrRef, List.mem_singleton] at hq
    simp [hq]
  | cons p rest ih =>
    obtain ⟨k, v⟩ := p
    have hv : 1 ≤ v := hpos _ (List.mem_cons_self _ _)
    have hrest : PosRef rest := fun q hq => hpos q (List.mem_cons_of_mem _ hq)
    intro q hq
    by_cases hk : k = z
    · simp only [incrRef, if_pos hk, List.mem_cons] at hq
      rcases hq with h | h
      · subst h; simp; omega
      · exact hrest q h
    · simp only [incrRef, if_neg hk, List.mem_cons] at hq
      rcases hq with h | h
      · subst h; exact hv
      · exact ih hrest q h

theorem decrRef_pos (m : List (String × Int)) (z : String) (hpos : PosRef m) :
    PosRef (decrRef m z) := by
  induction m with
  | nil => intro q hq; cases hq
  | cons p rest ih =>
    obtain ⟨k, v⟩ := p
    have hrest : PosRef rest := fun q hq => hpos q (List.mem_cons_of_mem _ hq)
    intro q hq
    by_cases hk : k = z
    · simp only [decrRef, if_pos hk] at hq
      by_cases hv : v - 1 ≤ 0
      · rw [if_pos hv] at hq
        exact hrest q hq
      · rw [if_neg hv] at hq
        rcases List.mem_cons.mp hq with h | h
        · subst h; simp; omega
        · exact hrest q h
    · simp only [decrRef, if_neg hk] at hq
      rcases List.mem_cons.mp hq with h | h
      · subst h; exact hpos _ (List.mem_cons_self _ _)
      · exact ih hrest q h

theorem incrRef_keys_mem (m : List (String × Int)) (z k : String) :
    k ∈ (incrRef m z).map Prod.fst → k ∈ m.map Prod.fst ∨ k = z := by
  induction m with
  | nil => intro h; simpa [incrRef] using h
  | cons p rest ih =>
    intro h
    obtain ⟨k', v'⟩ := p
    by_cases hk' : k' = z
    · simp only [incrRef, if_pos hk', List.map_cons, List.mem_cons] at h ⊢
      tauto
    · simp only [incrRef, if_neg hk', List.map_cons, List.mem_cons] at h ⊢
      rcases h with h | h
      · tauto
      · rcases ih h with h' | h' <;> tauto

theorem incrRef_keys_nodup (m : List (String × Int)) (z : String)
    (hnd : (m.map Prod.fst).Nodup) : ((incrRef m z).map Prod.fst).Nodup := by
  induction m with
  | nil => simp [incrRef]
  | cons p rest ih =>
    obtain ⟨k, v⟩ := p
    simp only [List.map_cons, List.nodup_cons] at hnd
    obtain ⟨hk_not, hnd'⟩ := hnd
    by_cases hk : k = z
    · simp only [incrRef, if_pos hk, List.map_cons, List.nodup_cons]
      exact ⟨hk_not, hnd'⟩
    · simp only [incrRef, if_neg hk, List.map_cons, List.nodup_cons]
      refine ⟨fun hmem => ?_, ih hnd'⟩
      rcases incrRef_keys_mem rest z k hmem with h | h
      · exact hk_not h
      · exact hk h

theorem decrRef_keys_sublist (m : List (String × Int)) (z : String) :
    ((decrRef m z).map Prod.fst).Sublist (m.map Prod.fst) := by
  induction m with
  | nil => simp [decrRef]
  | cons p rest ih =>
    obtain ⟨k, v⟩ := p
    by_cases hk : k = z
    · simp only [decrRef, if_pos hk]
      by_cases hv : v - 1 ≤ 0
      · rw [if_pos hv]
        simp only [List.map_cons]
        exact List.sublist_cons_self _ _
      · rw [if_neg hv]
        simp only [List.map_cons]
        exact List.Sublist.cons₂ _ (List.Sublist.refl _)
    · simp only [decrRef, if_neg hk, List.map_cons]
      exact List.Sublist.cons₂ _ ih

theorem decrRef_keys_nodup (m : List (String × Int)) (z : String)
    (hnd : (m.map Prod.fst).Nodup) : ((decrRef m z).map Prod.fst).Nodup :=
  (decrRef_keys_sublist m z).nodup hnd

theorem refCount_nonneg (m : List (String × Int)) (hpos : PosRef m) (w : String) :
    0 ≤ refCount m w := by
  unfold refCount
  rcases hl : lookupRef m w with - | v
  · simp
  · have := hpos _ (mem_of_lookupRef_eq_some m w v hl)
    simp only [Option.getD_some]
    omega

theorem foldl_incr_pos (Z : List String) :
    ∀ m, PosRef m → PosRef (Z.foldl incrRef m) := by
  induction Z with
  | nil => intro m hm; simpa using hm
  | cons z Z ih =>
    intro m hm
    rw [List.foldl_cons]
    exact ih _ (incrRef_pos m z hm)

theorem foldl_incr_nodup (Z : List String) :
    ∀ m, (m.map Prod.fst).Nodup → ((Z.foldl incrRef m).map Prod.fst).Nodup := by
  induction Z with
  | nil => intro m hm; simpa using hm
  | cons z Z ih =>
    intro m hm
    rw [List.foldl_cons]
    exact ih _ (incrRef_keys_nodup m z hm)

theorem foldl_decr_pos (Z : List String) :
    ∀ m, PosRef m → PosRef (Z.foldl decrRef m) := by
  induction Z with
  | nil => intro m hm; simpa using hm
  | cons z Z ih =>
    intro m hm
    rw [List.foldl_cons]
    exact ih _ (decrRef_pos m z hm)

theorem foldl_decr_nodup (Z : List String) :
    ∀ m, (m.map Prod.fst).Nodup → ((Z.foldl decrRef m).map Prod.fst).Nodup := by
  induction Z with
  | nil => intro m hm; simpa using hm
  | cons z Z ih =>
    intro m hm
    rw [List.foldl_cons]
    exact ih _ (decrRef_keys_nodup m z hm)

theorem refCount_foldl_incr (Z : List String) :
    ∀ (m : List (String × Int)) (w : String),
      refCount (Z.foldl incrRef m) w = refCount m w + (Z.count w : Int) := by
  induction Z with
  | nil => intro m w; simp
  | cons z Z ih =>
    intro m w
    rw [List.foldl_cons, ih, refCount_incrRef]
    by_cases hw : w = z
    · rw [if_pos hw, hw, List.count_cons_self]
      push_cast
      ring
    · rw [if_neg hw, List.count_cons_of_ne hw]
      ring

theorem refCount_foldl_decr (Z : List String) :
    ∀ (m : List (String × Int)) (w : String),
      (m.map Prod.fst).Nodup → PosRef m →
      refCount (Z.foldl decrRef m) w = max (refCount m w - (Z.count w : Int)) 0 := by
  induction Z with
  | nil =>
    intro m w hnd hpos
    have := refCount_nonneg m hpos w
    simp
    omega
  | cons z Z ih =>
    intro m w hnd hpos
    rw [List.foldl_cons,
      ih (decrRef m z) w (decrRef_keys_nodup m z hnd) (decrRef_pos m z hpos),
      refCount_decrRef m z w hnd hpos]
    have := refCount_nonneg m hpos w
    by_cases hw : w = z
    · rw [if_pos hw, hw, List.count_cons_self]
      push_cast
      omega
    · rw [if_neg hw, List.count_cons_of_ne hw]

theorem RegisterHandlerOp_extraDomains (env : Env) (st : ServerState)
    (D : List String) (h : DnsHandler) (p : Int) :
    (RegisterHandlerOp env st D h p).extraDomains =
      (D.map toZone).foldl incrRef st.extraDomains := by
  unfold RegisterHandlerOp
  rw [applyHostConfigOp_extraDomains]
  simp [registerHandlerInternal, List.foldl_map]

theorem DeregisterHandlerOp_extraDomains (env : Env) (st : ServerState)
    (D : List String) (p : Int) :
    (DeregisterHandlerOp env st D p).extraDomains =
      (D.map toZone).foldl decrRef st.extraDomains := by
  unfold DeregisterHandlerOp
  rw [applyHostConfigOp_extraDomains]
  simp [deregisterHandlerInternal, List.foldl_map]

theorem regOp_iterate_spec (env : Env) (D : List String) (h : DnsHandler) (p : Int) :
    ∀ (N : Nat) (st : ServerState),
      (st.extraDomains.map Prod.fst).Nodup → PosRef st.extraDomains →
      ((((fun s => RegisterHandlerOp env s D h p)^[N] st).extraDomains.map Prod.fst).Nodup ∧
       PosRef (((fun s => RegisterHandlerOp env s D h p)^[N] st).extraDomains)) ∧
      ∀ w, refCount (((fun s => RegisterHandlerOp env s D h p)^[N] st).extraDomains) w =
        refCount st.extraDomains w + (N : Int) * ((D.map toZone).count w : Int) := by
  intro N
  induction N with
  | zero =>
    intro st hnd hpos
    exact ⟨⟨by simpa using hnd, by simpa using hpos⟩, fun w => by simp⟩
  | succ n ih =>
    intro st hnd hpos
    have h1 := RegisterHandlerOp_extraDomains env st D h p
    have hnd' : (((RegisterHandlerOp env st D h p).extraDomains.map Prod.fst).Nodup) := by
      rw [h1]; exact foldl_incr_nodup _ _ hnd
    have hpos' : PosRef (RegisterHandlerOp env st D h p).extraDomains := by
      rw [h1]; exact foldl_incr_pos _ _ hpos
    obtain ⟨hinv, hcnt⟩ := ih (RegisterHandlerOp env st D h p) hnd' hpos'
    rw [Function.iterate_succ_apply]
    refine ⟨hinv, fun w => ?_⟩
    rw [hcnt w, h1, refCount_foldl_incr]
    push_cast
    ring

theorem deregOp_iterate_spec (env : Env) (D : List String) (p : Int) :
    ∀ (N : Nat) (st : ServerState),
      (st.extraDomains.map Prod.fst).Nodup → PosRef st.extraDomains →
      ((((fun s => DeregisterHandlerOp env s D p)^[N] st).extraDomains.map Prod.fst).Nodup ∧
       PosRef (((fun s => DeregisterHandlerOp env s D p)^[N] st).extraDomains)) ∧
      ∀ w, refCount (((fun s => DeregisterHandlerOp env s D p)^[N] st).extraDomains) w =
        max (refCount st.extraDomains w - (N : Int) * ((D.map toZone).count w : Int)) 0 := by
  intro N
  induction N with
  | zero =>
    intro st hnd hpos
    refine ⟨⟨by simpa using hnd, by simpa using hpos⟩, fun w => ?_⟩
    have := refCount_nonneg _ hpos w
    simp
    omega
  | succ n ih =>
    intro st hnd hpos
    have h1 := DeregisterHandlerOp_extraDomains env st D p
    have hnd' : (((DeregisterHandlerOp env st D p).extraDomains.map Prod.fst).Nodup) := by
      rw [h1]; exact foldl_decr_nodup _ _ hnd
    have hpos' : PosRef (DeregisterHandlerOp env st D p).extraDomains := by
      rw [h1]; exact foldl_decr_pos _ _ hpos
    obtain ⟨hinv, hcnt⟩ := ih (DeregisterHandlerOp env st D p) hnd' hpos'
    rw [Function.iterate_succ_apply]
    refine ⟨hinv, fun w => ?_⟩
    rw [hcnt w, h1, refCount_foldl_decr _ _ _ hnd hpos]
    have := refCount_nonneg _ hpos w
    have hc : (0 : Int) ≤ ((D.map toZone).count w : Int) := by positivity
    push_cast
    rw [max_def, max_def, max_def]
    split <;> split <;> split <;> nlinarith [hc, this]

theorem lookupRef_eq_of_refCount_eq (m m' : List (String × Int)) (w : String)
    (hpos : PosRef m) (hpos' : PosRef m')
    (h : refCount m w = refCount m' w) : lookupRef m w = lookupRef m' w := by
  unfold refCount at h
  rcases hl : lookupRef m w with - | v <;> rcases hl' : lookupRef m' w with - | v'
  · rfl
  · rw [hl, hl'] at h
    have := hpos' _ (mem_of_lookupRef_eq_some m' w v' hl')
    simp only [Option.getD_none, Option.getD_some] at h
    omega
  · rw [hl, hl'] at h
    have := hpos _ (mem_of_lookupRef_eq_some m w v hl)
    simp only [Option.getD_none, Option.getD_some] at h
    omega
  · rw [hl, hl'] at h
    simp only [Option.getD_some] at h
    rw [h]

/-- C7: `RegisterHandler` and `DeregisterHandler` are inverses at the
refcount level: from any state whose refcount map satisfies its invariant
(unique keys, positive counts), `N` registrations of a domain list at a
priority followed by `N` deregistrations leave the `extraDomains` map
unchanged (the association list renders the unordered Go map, so equality
is by lookup). -/
theorem C7_register_deregister_inverse (env : Env) (st : ServerState)
    (D : List String) (h : DnsHandler) (p : Int) (N : Nat) (z : String)
    (hnd : (st.extraDomains.map Prod.fst).Nodup)
    (hpos : PosRef st.extraDomains) :
    lookupRef (((fun s => DeregisterHandlerOp env s D p)^[N]
        ((fun s => RegisterHandlerOp env s D h p)^[N] st)).extraDomains) z =
      lookupRef st.extraDomains z := by
  obtain ⟨⟨rnd, rpos⟩, rcnt⟩ := regOp_iterate_spec env D h p N st hnd hpos
  obtain ⟨⟨dnd, dpos⟩, dcnt⟩ :=
    deregOp_iterate_spec env D p N ((fun s => RegisterHandlerOp env s D h p)^[N] st) rnd rpos
  have hg := refCount_nonneg _ hpos z
  apply lookupRef_eq_of_refCount_eq _ _ z dpos hpos
  rw [dcnt z, rcnt z]
  omega

/-- A state with one live extra-domain refcount. -/
def stW : ServerState := { st0 with extraDomains := [("a.example.", 2)] }

/-- Witness for C7: two registrations then two deregistrations of two
domains leave the concrete refcount map unchanged. -/
theorem C7_register_deregister_inverse_witness :
    (stW.extraDomains.map Prod.fst).Nodup ∧ PosRef stW.extraDomains ∧
    lookupRef (((fun s => DeregisterHandlerOp env0 s ["a.example", "b.example"] 200)^[2]
        ((fun s => RegisterHandlerOp env0 s ["a.example", "b.example"]
          .localResolver 200)^[2] stW)).extraDomains) "a.example." =
      lookupRef stW.extraDomains "a.example." :=
  ⟨by decide, by unfold PosRef; decide,
   C7_register_deregister_inverse env0 stW ["a.example", "b.example"]
     .localResolver 200 2 "a.example." (by decide) (by unfold PosRef; decide)⟩

/-! ## C5: the reactivate guard -/

/-- Generic fold-invariant helper. -/
theorem foldl_preserve {α β : Type} (f : β → α → β) (P : β → Prop)
    (hf : ∀ b a, P b → P (f b a)) :
    ∀ (l : List α) (b : β), P b → P (l.foldl f b) := by
  intro l
  induction l with
  | nil => intro b hb; exact hb
  | cons a t ih => intro b hb; exact ih _ (hf b a hb)

theorem mem_setRef (m : List (String × Int)) (k : String) (v : Int) (q : String × Int) :
    q ∈ setRef m k v → q = (k, v) ∨ q ∈ m := by
  induction m with
  | nil => intro h; simpa [setRef] using h
  | cons p rest ih =>
    intro h
    obtain ⟨k', v'⟩ := p
    by_cases hk : k' = k
    · simp only [setRef, if_pos hk, List.mem_cons] at h
      rcases h with h | h
      · exact Or.inl (by rw [h, hk])
      · exact Or.inr (List.mem_cons_of_mem _ h)
    · simp only [setRef, if_neg hk, List.mem_cons] at h
      rcases h with h | h
      · exact Or.inr (h ▸ List.mem_cons_self _ _)
      · rcases ih h with h' | h'
        · exact Or.inl h'
        · exact Or.inr (List.mem_cons_of_mem _ h')

/-- Every index the deactivate callback records is the sentinel `-1` or a
valid (nonnegative) position of `currentConfig.Domains`. -/
theorem deactivateOp_removeIndex_ge (env : Env) (stD : ServerState)
    (nsGroup : NameServerGroup) (priority : Int) :
    ∀ q ∈ (deactivateOp env stD nsGroup priority).2, -1 ≤ q.2 := by
  unfold deactivateOp
  have hbase : ∀ (ds : List String) (m : List (String × Int)),
      (∀ q ∈ m, -1 ≤ q.2) → ∀ q ∈ ds.foldl (fun m d => setRef m d (-1)) m, -1 ≤ q.2 := by
    intro ds
    apply foldl_preserve
    intro m d hm q hq
    rcases mem_setRef m d (-1) q hq with h | h
    · rw [h]
    · exact hm q h
  have hstart : ∀ q ∈ (if nsGroup.primary then
      (deregisterHandlerInternal
        { stD with currentConfig := { stD.currentConfig with routeAll := false } }
        [RootZone] priority,
       setRef (nsGroup.domains.foldl (fun m d => setRef m d (-1)) []) RootZone (-1))
      else (stD, nsGroup.domains.foldl (fun m d => setRef m d (-1)) [])).2, -1 ≤ q.2 := by
    split
    · intro q hq
      rcases mem_setRef _ RootZone (-1) q hq with h | h
      · rw [h]
      · exact hbase nsGroup.domains [] (by intro q hq'; cases hq') q h
    · exact hbase nsGroup.domains [] (by intro q hq'; cases hq')
  refine foldl_preserve _
    (fun (p : ServerState × List (String × Int)) => ∀ q ∈ p.2, -1 ≤ q.2) ?_ _ _ hstart
  intro p i hp q hq
  dsimp only at hq
  split at hq
  · exact hp q hq
  · split at hq
    · rcases mem_setRef _ _ _ q hq with h | h
      · rw [h]
        show (-1 : Int) ≤ (i : Int)
        omega
      · exact hp q h
    · exact hp q hq

/-- The default domain entry used with `getD` in statements. -/
def dc0 : DomainConfig := { domain := "", matchOnly := false, disabled := false }

theorem setDisabled_length (ds : List DomainConfig) (i : Nat) (b : Bool) :
    (setDisabled ds i b).length = ds.length := by
  unfold setDisabled
  split
  · rfl
  · simp

theorem setDisabled_getElem_ne (ds : List DomainConfig) (i j : Nat) (b : Bool)
    (hij : i ≠ j) : (setDisabled ds i b)[j]? = ds[j]? := by
  unfold setDisabled
  split
  · rfl
  · exact List.getElem?_set_ne hij

theorem setDisabled_getElem_self (ds : List DomainConfig) (i : Nat) (b : Bool)
    (item : DomainConfig) (hi : ds[i]? = some item) :
    (setDisabled ds i b)[i]? = some { item with disabled := b } := by
  unfold setDisabled
  rw [hi]
  have hlen : i < ds.length := by
    by_contra hlen
    rw [List.getElem?_eq_none (by omega)] at hi
    cases hi
  exact List.getElem?_set_self hlen

theorem mem_chainAddHandler (c : List ChainEntry) (zone : String) (h : DnsHandler)
    (p : Int) (e : ChainEntry) (he : e ∈ c) : e ∈ chainAddHandler c zone h p := by
  unfold chainAddHandler
  by_cases heq : e = { zone := zone, priority := p, handler := h }
  · rw [heq]
    exact List.mem_cons_self _ _
  · apply List.mem_cons_of_mem
    rw [List.mem_filter]
    refine ⟨he, ?_⟩
    simp only [decide_eq_true_eq]
    rintro ⟨h1, h2, h3⟩
    exact heq (by cases e; simp_all)

theorem mem_registerHandlerInternal_chain (st : ServerState) (Dl : List String)
    (h : DnsHandler) (p : Int) (e : ChainEntry) (he : e ∈ st.handlerChain) :
    e ∈ (registerHandlerInternal st Dl h p).handlerChain := by
  unfold registerHandlerInternal
  refine foldl_preserve _ (fun c => e ∈ c) ?_ Dl st.handlerChain he
  intro c d hc
  split
  · exact hc
  · exact mem_chainAddHandler c d h p e hc

theorem mem_applyHostConfigOp_chain (env : Env) (st : ServerState) (e : ChainEntry)
    (he : e ∈ st.handlerChain) : e ∈ (applyHostConfigOp env st).handlerChain := by
  unfold applyHostConfigOp
  split
  · exact he
  · dsimp only
    split <;> split <;>
      first
        | exact he
        | exact mem_registerHandlerInternal_chain _ [RootZone] _ PriorityFallback e he

theorem getD_of_getElem? (ds : List DomainConfig) (j : Nat) (x : DomainConfig)
    (h : ds[j]? = some x) : ds.getD j dc0 = x := by
  rw [List.getD_eq_getElem?_getD, h]
  rfl

theorem getElem?_eq_some_getD (ds : List DomainConfig) (j : Nat) (hj : j < ds.length) :
    ds[j]? = some { domain := (ds.getD j dc0).domain,
                    matchOnly := (ds.getD j dc0).matchOnly,
                    disabled := (ds.getD j dc0).disabled } := by
  have h := List.getElem?_eq_getElem (l := ds) hj
  rw [h, getD_of_getElem? ds j _ h]

/-- Effect of one reactivate-loop step: the domain list keeps its length,
names and match-only flags; the disabled flag at slot `j` is cleared
exactly when the step's record points at `j` and the slot still carries
the recorded name; `routeAll` is untouched and the chain only grows. -/
theorem reactivateStep_spec (handler : DnsHandler) (priority : Int)
    (s : ServerState) (q : String × Int) (hq : -1 ≤ q.2) :
    (reactivateStep handler priority s q).currentConfig.domains.length =
      s.currentConfig.domains.length ∧
    (reactivateStep handler priority s q).currentConfig.routeAll =
      s.currentConfig.routeAll ∧
    (∀ e ∈ s.handlerChain, e ∈ (reactivateStep handler priority s q).handlerChain) ∧
    (∀ j, j < s.currentConfig.domains.length →
      (reactivateStep handler priority s q).currentConfig.domains[j]? =
        some { domain := (s.currentConfig.domains.getD j dc0).domain,
               matchOnly := (s.currentConfig.domains.getD j dc0).matchOnly,
               disabled :=
                 if q.2 = (j : Int) ∧ (s.currentConfig.domains.getD j dc0).domain = q.1
                 then false
                 else (s.currentConfig.domains.getD j dc0).disabled }) := by
  by_cases hguard : q.2 = -1 ∨ (s.currentConfig.domains.length : Int) ≤ q.2
  · have hstep : reactivateStep handler priority s q = s := by
      unfold reactivateStep
      rw [if_pos hguard]
    rw [hstep]
    refine ⟨rfl, rfl, fun e he => he, fun j hj => ?_⟩
    rw [if_neg ?_, getElem?_eq_some_getD _ j hj]
    rintro ⟨hq2, -⟩
    rcases hguard with hg | hg
    · omega
    · omega
  · have hcomp := hguard
    push_neg at hcomp
    obtain ⟨hne, hlt⟩ := hcomp
    have h0 : 0 ≤ q.2 := by omega
    have htn : (q.2.toNat : Int) = q.2 := Int.toNat_of_nonneg h0
    have hnlen : q.2.toNat < s.currentConfig.domains.length := by omega
    obtain ⟨item, hitem⟩ : ∃ it, s.currentConfig.domains[q.2.toNat]? = some it :=
      ⟨_, List.getElem?_eq_getElem hnlen⟩
    have hgd : s.currentConfig.domains.getD q.2.toNat dc0 = item :=
      getD_of_getElem? _ _ _ hitem
    by_cases hname : item.domain = q.1
    · have hstep : reactivateStep handler priority s q =
          registerHandlerInternal
            { s with currentConfig :=
                { s.currentConfig with
                    domains := setDisabled s.currentConfig.domains q.2.toNat false } }
            [q.1] handler priority := by
        unfold reactivateStep
        rw [if_neg hguard, hitem]
        show (if ¬item.domain = q.1 then s else _) = _
        rw [if_neg (fun hh => hh hname)]
      rw [hstep]
      refine ⟨?_, rfl, ?_, ?_⟩
      · show (setDisabled s.currentConfig.domains q.2.toNat false).length = _
        exact setDisabled_length _ _ _
      · intro e he
        exact mem_registerHandlerInternal_chain _ _ _ _ e he
      · intro j hj
        show (setDisabled s.currentConfig.domains q.2.toNat false)[j]? = _
        by_cases hjn : j = q.2.toNat
        · subst hjn
          rw [setDisabled_getElem_self _ _ _ item hitem]
          rw [if_pos ⟨by omega, by rw [hgd]; exact hname⟩, hgd]
        · rw [setDisabled_getElem_ne _ _ _ _ (fun hh => hjn hh.symm)]
          rw [if_neg ?_, getElem?_eq_some_getD _ j hj]
          rintro ⟨hq2, -⟩
          exact hjn (by omega)
    · have hstep : reactivateStep handler priority s q = s := by
        unfold reactivateStep
        rw [if_neg hguard, hitem]
        show (if ¬item.domain = q.1 then s else _) = s
        rw [if_pos hname]
      rw [hstep]
      refine ⟨rfl, rfl, fun e he => he, fun j hj => ?_⟩
      rw [if_neg ?_, getElem?_eq_some_getD _ j hj]
      rintro ⟨hq2, hdom⟩
      have hj' : j = q.2.toNat := by omega
      rw [hj', hgd] at hdom
      exact hname hdom

/-- Effect of the whole reactivate loop: a slot's disabled flag is cleared
exactly when some recorded pair points at it with a still-matching name;
everything else about the domain list, and `routeAll`, is unchanged, and
the chain only grows. -/
theorem reactivate_fold_spec (handler : DnsHandler) (priority : Int) :
    ∀ (ri : List (String × Int)) (s : ServerState),
      (∀ q ∈ ri, -1 ≤ q.2) →
      (ri.foldl (reactivateStep handler priority) s).currentConfig.domains.length =
        s.currentConfig.domains.length ∧
      (ri.foldl (reactivateStep handler priority) s).currentConfig.routeAll =
        s.currentConfig.routeAll ∧
      (∀ e ∈ s.handlerChain,
        e ∈ (ri.foldl (reactivateStep handler priority) s).handlerChain) ∧
      (∀ j, j < s.currentConfig.domains.length →
        (ri.foldl (reactivateStep handler priority) s).currentConfig.domains[j]? =
          some { domain := (s.currentConfig.domains.getD j dc0).domain,
                 matchOnly := (s.currentConfig.domains.getD j dc0).matchOnly,
                 disabled :=
                   if ∃ q ∈ ri, q.2 = (j : Int) ∧
                       (s.currentConfig.domains.getD j dc0).domain = q.1
                   then false
                   else (s.currentConfig.domains.getD j dc0).disabled }) := by
  intro ri
  induction ri with
  | nil =>
    intro s _
    refine ⟨rfl, rfl, fun e he => he, fun j hj => ?_⟩
    simp only [List.foldl_nil]
    rw [if_neg (by simp), getElem?_eq_some_getD _ j hj]
  | cons q ri ih =>
    intro s hge
    rw [List.foldl_cons]
    obtain ⟨slen, sroute, schain, sj⟩ :=
      reactivateStep_spec handler priority s q (hge q (List.mem_cons_self _ _))
    obtain ⟨ilen, iroute, ichain, ij⟩ :=
      ih (reactivateStep handler priority s q)
        (fun q' h' => hge q' (List.mem_cons_of_mem _ h'))
    refine ⟨by rw [ilen, slen], by rw [iroute, sroute],
      fun e he => ichain e (schain e he), fun j hj => ?_⟩
    have hj1 : j < (reactivateStep handler priority s q).currentConfig.domains.length := by
      rw [slen]; exact hj
    rw [ij j hj1]
    rw [getD_of_getElem? _ _ _ (sj j hj)]
    simp only [Option.some.injEq, DomainConfig.mk.injEq]
    refine ⟨trivial, trivial, ?_⟩
    by_cases hq1 : q.2 = (j : Int) ∧ (s.currentConfig.domains.getD j dc0).domain = q.1
    · have hex : ∃ q₂ ∈ q :: ri, q₂.2 = (j : Int) ∧
          (s.currentConfig.domains.getD j dc0).domain = q₂.1 :=
        ⟨q, List.mem_cons_self _ _, hq1⟩
      rw [if_pos hq1, if_pos hex, ite_self]
    · have hiff : (∃ q₂ ∈ q :: ri, q₂.2 = (j : Int) ∧
          (s.currentConfig.domains.getD j dc0).domain = q₂.1) ↔
          (∃ q₂ ∈ ri, q₂.2 = (j : Int) ∧
            (s.currentConfig.domains.getD j dc0).domain = q₂.1) := by
        constructor
        · rintro ⟨q₂, hmem, hcond⟩
          rcases List.mem_cons.mp hmem with rfl | hmem'
          · exact absurd hcond hq1
          · exact ⟨q₂, hmem', hcond⟩
        · rintro ⟨q₂, hmem, hcond⟩
          exact ⟨q₂, List.mem_cons_of_mem _ hmem, hcond⟩
      rw [if_neg hq1, if_congr hiff rfl rfl]

/-- The root-zone entry registered last is in the chain. -/
theorem rootEntry_mem_registerInternal (X : ServerState) (handler : DnsHandler)
    (priority : Int) :
    ({ zone := RootZone, priority := priority, handler := handler } : ChainEntry) ∈
      (registerHandlerInternal X [RootZone] handler priority).handlerChain := by
  unfold registerHandlerInternal
  simp only [List.foldl_cons, List.foldl_nil]
  rw [if_neg (by decide)]
  exact List.mem_cons_self _ _

/-- C5: given the `removeIndex` recorded by the matching deactivate
callback, reactivate clears the disable flag at exactly the recorded
indices whose slot still exists and still carries the recorded domain,
leaves reshaped or out-of-range slots (and every name/match-only flag, and
the list length) unchanged, and for a primary group restores
`routeAll := true` and re-registers the root-zone handler at the group's
priority.  The intermediate state `st` is arbitrary, modelling updates
interleaved between deactivate and reactivate. -/
theorem C5_reactivate_guard (env envD : Env) (st stD : ServerState)
    (nsGroup : NameServerGroup) (handler : DnsHandler) (priority : Int)
    (ri : List (String × Int))
    (hri : ri = (deactivateOp envD stD nsGroup priority).2) :
    (reactivateOp env st nsGroup handler priority ri).currentConfig.domains.length =
      st.currentConfig.domains.length ∧
    (∀ j, j < st.currentConfig.domains.length →
      (reactivateOp env st nsGroup handler priority ri).currentConfig.domains[j]? =
        some { domain := (st.currentConfig.domains.getD j dc0).domain,
               matchOnly := (st.currentConfig.domains.getD j dc0).matchOnly,
               disabled :=
                 if ∃ q ∈ ri, q.2 = (j : Int) ∧
                     (st.currentConfig.domains.getD j dc0).domain = q.1
                 then false
                 else (st.currentConfig.domains.getD j dc0).disabled }) ∧
    (nsGroup.primary = true →
      (reactivateOp env st nsGroup handler priority ri).currentConfig.routeAll = true ∧
      ({ zone := RootZone, priority := priority, handler := handler } : ChainEntry) ∈
        (reactivateOp env st nsGroup handler priority ri).handlerChain) ∧
    (nsGroup.primary = false →
      (reactivateOp env st nsGroup handler priority ri).currentConfig.routeAll =
        st.currentConfig.routeAll) := by
  have hge : ∀ q ∈ ri, -1 ≤ q.2 := by
    rw [hri]
    exact deactivateOp_removeIndex_ge envD stD nsGroup priority
  obtain ⟨flen, froute, fchain, fj⟩ := reactivate_fold_spec handler priority ri st hge
  by_cases hp : nsGroup.primary = true
  · have hout : reactivateOp env st nsGroup handler priority ri =
        applyHostConfigOp env (registerHandlerInternal
          { ri.foldl (reactivateStep handler priority) st with currentConfig :=
              { (ri.foldl (reactivateStep handler priority) st).currentConfig with
                  routeAll := true } }
          [RootZone] handler priority) := by
      unfold reactivateOp
      simp only [if_pos hp]
    rw [hout]
    refine ⟨?_, ?_, fun _ => ⟨?_, ?_⟩, fun hnp => by rw [hp] at hnp; cases hnp⟩
    · rw [applyHostConfigOp_currentConfig]
      exact flen
    · intro j hj
      rw [applyHostConfigOp_currentConfig]
      exact fj j hj
    · rw [applyHostConfigOp_currentConfig]
      rfl
    · exact mem_applyHostConfigOp_chain env _ _
        (rootEntry_mem_registerInternal _ handler priority)
  · have hout : reactivateOp env st nsGroup handler priority ri =
        applyHostConfigOp env (ri.foldl (reactivateStep handler priority) st) := by
      unfold reactivateOp
      simp only [if_neg hp]
    rw [hout]
    refine ⟨?_, ?_, fun hpp => absurd hpp hp, fun _ => ?_⟩
    · rw [applyHostConfigOp_currentConfig]
      exact flen
    · intro j hj
      rw [applyHostConfigOp_currentConfig]
      exact fj j hj
    · rw [applyHostConfigOp_currentConfig]
      exact froute

/-- A state whose host config carries one domain entry, about to be
deactivated. -/
def stDW : ServerState :=
  { st0 with currentConfig :=
      { hostCfg0 with domains :=
          [{ domain := "corp.local", matchOnly := false, disabled := false }] } }

/-- The non-primary group claiming that domain. -/
def gW : NameServerGroup :=
  { nameServers := [{ ip := "10.0.0.53", port := 53, nsType := .udp }],
    domains := ["corp.local"], primary := false, searchDomainsEnabled := false }

/-- The indices recorded by the concrete deactivation. -/
def riW : List (String × Int) := (deactivateOp env0 stDW gW 200).2

/-- The state after the concrete deactivation. -/
def stMid : ServerState := (deactivateOp env0 stDW gW 200).1

/-- The group's upstream handler. -/
def handlerW : DnsHandler := .upstream "corp.local" ["10.0.0.53:53"]

/-- Witness for C5 at the concrete deactivate/reactivate pair. -/
theorem C5_reactivate_guard_witness :
    riW = (deactivateOp env0 stDW gW 200).2 ∧
    ((reactivateOp env0 stMid gW handlerW 200 riW).currentConfig.domains.length =
       stMid.currentConfig.domains.length ∧
     (0 < stMid.currentConfig.domains.length ∧
      (reactivateOp env0 stMid gW handlerW 200 riW).currentConfig.domains[0]? =
        some { domain := (stMid.currentConfig.domains.getD 0 dc0).domain,
               matchOnly := (stMid.currentConfig.domains.getD 0 dc0).matchOnly,
               disabled :=
                 if ∃ q ∈ riW, q.2 = ((0 : Nat) : Int) ∧
                     (stMid.currentConfig.domains.getD 0 dc0).domain = q.1
                 then false
                 else (stMid.currentConfig.domains.getD 0 dc0).disabled })) :=
  ⟨rfl, (C5_reactivate_guard env0 env0 stMid stDW gW handlerW 200 riW rfl).1,
   by decide,
   (C5_reactivate_guard env0 env0 stMid stDW gW handlerW 200 riW rfl).2.1 0 (by decide)⟩

end NetbirdDNS
